import Mathlib

/-!
Verification development for the xv6 checkpoint/restore extension in
`src/xv6-public/sysfile.c` (the `the_opener`, `sys_isvpcb` and `sys_ildpcb`
functions).  The kernel's file-system and process collaborators are modelled
at their call interfaces; the syscall bodies themselves are transcribed
statement by statement from the C source.
-/

set_option maxRecDepth 4000

namespace Xv6CR

/-- Page size, `PGSIZE` from mmu.h. -/
def PGSIZE : Nat := 4096

/-- Per-process open-file-table size, `NOFILE` from param.h. -/
def NOFILE : Nat := 16

/-- Open mode `O_RDONLY` from fcntl.h. -/
def O_RDONLY : Nat := 0x000

/-- Open mode `O_WRONLY` from fcntl.h. -/
def O_WRONLY : Nat := 0x001

/-- Open mode `O_RDWR` from fcntl.h. -/
def O_RDWR : Nat := 0x002

/-- Open mode `O_CREATE` from fcntl.h. -/
def O_CREATE : Nat := 0x200

/-- Transcribes the macro `PTE_ADDR(pte)` (clear the low 12 flag bits of a
page-table entry).  On 32-bit unsigned values this equals rounding down to a
multiple of `PGSIZE`. -/
def pteAddr (pte : Nat) : Nat := pte / PGSIZE * PGSIZE

/-- Transcribes the macro `PTE_FLAGS(pte)` (the low 12 bits). -/
def pteFlags (pte : Nat) : Nat := pte % PGSIZE

/-- Test of the present bit `PTE_P` (bit 0) of a page-table entry. -/
def ptePresent (pte : Nat) : Bool := pte % 2 = 1

/-- Transcribes `fdalloc` (sysfile.c lines 42-56): install `f` in the first
free slot of the per-process open-file table and return the chosen
descriptor together with the updated table; `none` models the C return
value -1 when every slot is taken.  The table is a list of `NOFILE`
slots. -/
def fdalloc {φ : Type} : List (Option φ) → φ → Option (Nat × List (Option φ))
  | [], _ => none
  | none :: rest, f => some (0, some f :: rest)
  | some g :: rest, f =>
    match fdalloc rest f with
    | some (i, rest') => some (i + 1, some g :: rest')
    | none => none

theorem fdalloc_spec {φ : Type} (l : List (Option φ)) (f : φ) (i : Nat)
    (l' : List (Option φ)) (h : fdalloc l f = some (i, l')) :
    l[i]? = some none ∧ l' = l.set i (some f) := by
  induction l generalizing i l' with
  | nil => simp [fdalloc] at h
  | cons a rest ih =>
    cases a with
    | none =>
      simp only [fdalloc, Option.some.injEq, Prod.mk.injEq] at h
      obtain ⟨hi, hl⟩ := h
      subst hi; subst hl
      exact ⟨by simp, rfl⟩
    | some g =>
      cases hrec : fdalloc rest f with
      | none => simp [fdalloc, hrec] at h
      | some p =>
        obtain ⟨j, rest'⟩ := p
        simp only [fdalloc, hrec, Option.some.injEq, Prod.mk.injEq] at h
        obtain ⟨hi, hl⟩ := h
        subst hi; subst hl
        obtain ⟨h1, h2⟩ := ih j rest' hrec
        refine ⟨by simpa using h1, ?_⟩
        simp [List.set, h2]

theorem getElem?_set_self {φ : Type} (l : List φ) (i : Nat) (a : φ)
    (h : i < l.length) : (l.set i a)[i]? = some a := by
  induction l generalizing i with
  | nil => simp at h
  | cons b rest ih =>
    cases i with
    | zero => simp
    | succ j =>
      simp only [List.length_cons, Nat.succ_lt_succ_iff] at h
      simpa [List.set] using ih j h

theorem getElem?_set_other {φ : Type} (l : List φ) (i j : Nat) (a : φ)
    (h : i ≠ j) : (l.set i a)[j]? = l[j]? := by
  induction l generalizing i j with
  | nil => simp
  | cons b rest ih =>
    cases i with
    | zero =>
      cases j with
      | zero => exact absurd rfl h
      | succ k => simp
    | succ i' =>
      cases j with
      | zero => simp
      | succ k =>
        have : i' ≠ k := by
          intro he; exact h (by simp [he])
        simpa [List.set] using ih i' k this

theorem set_none_of_none {φ : Type} (l : List (Option φ)) (i : Nat)
    (h : l[i]? = some none) : l.set i none = l := by
  induction l generalizing i with
  | nil => simp
  | cons a rest ih =>
    cases i with
    | zero =>
      simp only [List.getElem?_cons_zero, Option.some.injEq] at h
      simp [List.set, h]
    | succ j =>
      simp only [List.getElem?_cons_succ] at h
      simp [List.set, ih j h]

/-- Install `f`, then clear the slot again: the table is restored. -/
theorem fdalloc_set_cancel {φ : Type} (l : List (Option φ)) (f : φ) (i : Nat)
    (l' : List (Option φ)) (h : fdalloc l f = some (i, l')) :
    l'.set i none = l := by
  obtain ⟨h1, h2⟩ := fdalloc_spec l f i l' h
  subst h2
  rw [List.set_set]
  exact set_none_of_none l i h1

/-!
## The `the_opener` / `sys_open` refinement (claim C10)

Both C functions are transcribed over an abstract interface to the
file-system collaborators they call (`begin_op`, `create`, `namei`,
inode locking, `filealloc`, `fileclose` and the final initialisation of
the `struct file` fields).  `σ` is the file-system/file-table state, `ι`
an inode handle, `φ` a `struct file` handle.
-/

/-- Interface to the external file-system collaborators used by
`sys_open` and `the_opener`.  Each operation threads the abstract kernel
state `σ`; `create` is `create(path, T_FILE, 0, 0)` and returns the new
inode locked, `namei` returns it unlocked, `isDir` reads
`ip->type == T_DIR`, and `initFile` performs the four field assignments
`f->type = FD_INODE; f->ip = ip; f->off = 0;` plus the readable/writable
flags. -/
structure FsOps (σ ι φ : Type) where
  beginOp : σ → σ
  endOp : σ → σ
  create : σ → String → σ × Option ι
  namei : σ → String → σ × Option ι
  ilock : σ → ι → σ
  iunlock : σ → ι → σ
  iunlockput : σ → ι → σ
  isDir : σ → ι → Bool
  filealloc : σ → σ × Option φ
  fileclose : σ → φ → σ
  initFile : σ → φ → ι → Bool → Bool → σ

/-- Transcribes the body of `sys_open` (sysfile.c lines 300-354) after the
`argstr`/`argint` argument fetching: `path` and `omode` are taken as given.
Returns the C return value together with the final kernel state and the
final open-file table. -/
def sys_open_body {σ ι φ : Type} (ops : FsOps σ ι φ) (st0 : σ)
    (ofile : List (Option φ)) (path : String) (omode : Nat) :
    Int × σ × List (Option φ) :=
  let st := ops.beginOp st0
  if omode &&& O_CREATE ≠ 0 then
    match ops.create st path with
    | (st, none) => (-1, ops.endOp st, ofile)
    | (st, some ip) =>
      match ops.filealloc st with
      | (st, none) => (-1, ops.endOp (ops.iunlockput st ip), ofile)
      | (st, some f) =>
        match fdalloc ofile f with
        | none => (-1, ops.endOp (ops.iunlockput (ops.fileclose st f) ip), ofile)
        | some (fd, ofile') =>
          let st := ops.iunlock st ip
          let st := ops.endOp st
          let st := ops.initFile st f ip (omode &&& O_WRONLY == 0)
            ((omode &&& O_WRONLY ≠ 0) || (omode &&& O_RDWR ≠ 0))
          ((fd : Int), st, ofile')
  else
    match ops.namei st path with
    | (st, none) => (-1, ops.endOp st, ofile)
    | (st, some ip) =>
      let st := ops.ilock st ip
      if ops.isDir st ip ∧ omode ≠ O_RDONLY then
        (-1, ops.endOp (ops.iunlockput st ip), ofile)
      else
        match ops.filealloc st with
        | (st, none) => (-1, ops.endOp (ops.iunlockput st ip), ofile)
        | (st, some f) =>
          match fdalloc ofile f with
          | none => (-1, ops.endOp (ops.iunlockput (ops.fileclose st f) ip), ofile)
          | some (fd, ofile') =>
            let st := ops.iunlock st ip
            let st := ops.endOp st
            let st := ops.initFile st f ip (omode &&& O_WRONLY == 0)
              ((omode &&& O_WRONLY ≠ 0) || (omode &&& O_RDWR ≠ 0))
            ((fd : Int), st, ofile')

/-- Transcribes `the_opener` (sysfile.c lines 478-529).  The C function
begins with `char *path = p; int omode = om;` and then repeats the body of
`sys_open` verbatim. -/
def the_opener {σ ι φ : Type} (ops : FsOps σ ι φ) (st0 : σ)
    (ofile : List (Option φ)) (p : String) (om : Nat) :
    Int × σ × List (Option φ) :=
  let path := p
  let omode := om
  let st := ops.beginOp st0
  if omode &&& O_CREATE ≠ 0 then
    match ops.create st path with
    | (st, none) => (-1, ops.endOp st, ofile)
    | (st, some ip) =>
      match ops.filealloc st with
      | (st, none) => (-1, ops.endOp (ops.iunlockput st ip), ofile)
      | (st, some f) =>
        match fdalloc ofile f with
        | none => (-1, ops.endOp (ops.iunlockput (ops.fileclose st f) ip), ofile)
        | some (fd, ofile') =>
          let st := ops.iunlock st ip
          let st := ops.endOp st
          let st := ops.initFile st f ip (omode &&& O_WRONLY == 0)
            ((omode &&& O_WRONLY ≠ 0) || (omode &&& O_RDWR ≠ 0))
          ((fd : Int), st, ofile')
  else
    match ops.namei st path with
    | (st, none) => (-1, ops.endOp st, ofile)
    | (st, some ip) =>
      let st := ops.ilock st ip
      if ops.isDir st ip ∧ omode ≠ O_RDONLY then
        (-1, ops.endOp (ops.iunlockput st ip), ofile)
      else
        match ops.filealloc st with
        | (st, none) => (-1, ops.endOp (ops.iunlockput st ip), ofile)
        | (st, some f) =>
          match fdalloc ofile f with
          | none => (-1, ops.endOp (ops.iunlockput (ops.fileclose st f) ip), ofile)
          | some (fd, ofile') =>
            let st := ops.iunlock st ip
            let st := ops.endOp st
            let st := ops.initFile st f ip (omode &&& O_WRONLY == 0)
              ((omode &&& O_WRONLY ≠ 0) || (omode &&& O_RDWR ≠ 0))
            ((fd : Int), st, ofile')

/-- C10: for every file-system interface, kernel state, open-file table,
path and mode, `the_opener(path, mode)` returns the same descriptor (or -1)
and produces the same kernel state and the same open-file table as the body
of `sys_open` run after argument fetching with the same path and mode. -/
theorem the_opener_refines_sys_open {σ ι φ : Type} (ops : FsOps σ ι φ)
    (st : σ) (ofile : List (Option φ)) (p : String) (om : Nat) :
    the_opener ops st ofile p om = sys_open_body ops st ofile p om := rfl

/-!
## The checkpoint syscall `sys_isvpcb` (sysfile.c lines 531-649)

The file-system collaborators are modelled at their call interface:

* `the_opener(name, O_CREATE|O_RDWR)` either fails (file-system error or
  exhausted tables, return -1) or binds a handle for the named artifact in
  the first free slot of the caller's open-file table (`fdalloc`
  semantics).  The environment's `openOk` decides which.
* `filewrite(f, buf, n)` appends the record to the artifact designated by
  the handle and returns a byte count chosen by the environment; a return
  value different from the requested size models a short write.
* `cprintf` appends a message to a console trace; `exit()` and `panic()`
  terminate and never return, so the final `return 0` of the C function is
  dead code.
* An out-of-range descriptor index (the C code never guards the `flag`
  descriptor) yields no handle and the table accesses become no-ops; the
  corresponding C behaviour is undefined, so theorems that depend on those
  paths carry a hypothesis that the `flag` open succeeded.
-/

/-- Console messages emitted by the `cprintf` calls of `sys_isvpcb` and
`sys_ildpcb`. -/
inductive Msg
  | parentPid (pid : Nat)
  | createdUVM
  | errCreateUVM
  | errWriteUVM
  | writtenPage (k : Nat)
  | createdCtx
  | errCreateCtx
  | errWriteCtx
  | writtenCtx
  | createdTf
  | errCreateTf
  | errWriteTf
  | writtenTf
  | createdProc
  | errCreateProc
  | errWriteProc
  | writtenProc
  | writeDone
  | readSuccessful
deriving DecidableEq

/-- One record passed to `filewrite` by the checkpoint: a page-content
block, a permission-flag word, or the context / trap-frame / process
descriptor record.  `Pg`, `Ctx`, `Tf`, `PR` are the (opaque) contents of
the four record kinds. -/
inductive Chunk (Pg Ctx Tf PR : Type)
  | page (p : Pg)
  | flagw (w : Nat)
  | ctx (c : Ctx)
  | tfr (t : Tf)
  | prc (r : PR)
deriving DecidableEq

/-- Kernel state visible to `sys_isvpcb`: the caller's open-file table
(handles named by artifact), the chronological log of artifact writes, the
console trace, and the fields of `struct proc` the syscall reads
(`sz`, `pgdir`, physical memory, `pid`, `*context`, `*tf`, and the whole
descriptor record written to the `proc` artifact). -/
structure CkptSt (Pg Ctx Tf PR : Type) where
  ofile : List (Option String)
  writes : List (String × Chunk Pg Ctx Tf PR)
  console : List Msg
  sz : Nat
  pgdir : Nat → Option Nat
  mem : Nat → Pg
  pid : Nat
  ctx : Ctx
  tf : Tf
  prc : PR

/-- Environment oracle for the checkpoint: which opens succeed at the
file-system level, and the byte count each `filewrite` call returns
(indexed per call site, and per page index inside the sweep loop).
`szCtx`/`szTf`/`szProc` are `sizeof(struct context)`,
`sizeof(struct trapframe)` and `sizeof(struct proc)`. -/
structure CkptEnv where
  openOk : String → Bool
  pageWriteRes : Nat → Int
  flagWriteRes : Nat → Int
  ctxWriteRes : Int
  tfWriteRes : Int
  procWriteRes : Int
  szCtx : Nat
  szTf : Nat
  szProc : Nat

/-- A fully free open-file table (`NOFILE` empty slots). -/
def emptyOfile : List (Option String) := List.replicate NOFILE none

/-- `proc->ofile[fd]` with an `Int` index; a negative index (the unchecked
-1 of a failed open) yields no handle. -/
def getFd (tbl : List (Option String)) (fd : Int) : Option String :=
  if fd < 0 then none else tbl.getD fd.toNat none

/-- `proc->ofile[fd] = v` with an `Int` index; out-of-range stores are
no-ops. -/
def setFdTbl (tbl : List (Option String)) (fd : Int) (v : Option String) :
    List (Option String) :=
  if fd < 0 then tbl else tbl.set fd.toNat v

/-- Interface-level model of a `the_opener(name, mode)` call as used by the
two checkpoint/restore syscalls: on success the handle for the named
artifact is installed by `fdalloc` in the first free slot; `-1` reports a
file-system failure (`ok = false`) or an exhausted table. -/
def openIfc (ok : Bool) (tbl : List (Option String)) (name : String) :
    Int × List (Option String) :=
  if ok then
    match fdalloc tbl name with
    | some (fd, tbl') => ((fd : Int), tbl')
    | none => (-1, tbl)
  else (-1, tbl)

/-- The records a `filewrite` through handle `h` appends: one record when
the handle is bound, none through the absent handle of a failed open. -/
def chunkOf {Pg Ctx Tf PR : Type} (h : Option String)
    (c : Chunk Pg Ctx Tf PR) : List (String × Chunk Pg Ctx Tf PR) :=
  match h with
  | some nm => [(nm, c)]
  | none => []

/-- `filewrite(h, record)`: append the record to the write log. -/
def writeChunk {Pg Ctx Tf PR : Type} (st : CkptSt Pg Ctx Tf PR)
    (h : Option String) (c : Chunk Pg Ctx Tf PR) : CkptSt Pg Ctx Tf PR :=
  {st with writes := st.writes ++ chunkOf h c}

/-- `cprintf`: append a console message. -/
def pushMsg {Pg Ctx Tf PR : Type} (st : CkptSt Pg Ctx Tf PR) (m : Msg) :
    CkptSt Pg Ctx Tf PR :=
  {st with console := st.console ++ [m]}

/-- The two `panic` sites of the sweep loop (sysfile.c lines 558, 560). -/
inductive PanicKind
  | pteMissing
  | notPresent
deriving DecidableEq

/-- Intermediate outcome of one checkpoint section: a kernel panic, an
`exit()` of the caller, or normal continuation. -/
inductive Step (Pg Ctx Tf PR : Type)
  | panicked (k : PanicKind) (st : CkptSt Pg Ctx Tf PR)
  | exited (st : CkptSt Pg Ctx Tf PR)
  | ok (st : CkptSt Pg Ctx Tf PR)

/-- Final outcome of `sys_isvpcb`: `returned` models the C `return`
statement (reaching the caller again); `exit()`/`panic()` never return. -/
inductive KOut (Pg Ctx Tf PR : Type)
  | panicked (k : PanicKind) (st : CkptSt Pg Ctx Tf PR)
  | exited (st : CkptSt Pg Ctx Tf PR)
  | returned (v : Int) (st : CkptSt Pg Ctx Tf PR)

/-- Number of iterations of `for (i = 0; i < sz; i += PGSIZE)`: the number
of page-aligned addresses below `sz`, i.e. `⌈sz / PGSIZE⌉`. -/
def npagesOf (sz : Nat) : Nat := (sz + PGSIZE - 1) / PGSIZE

/-- Transcribes the UVM sweep loop of `sys_isvpcb` (sysfile.c lines
555-574), iterating over the page indices `ks` (page `k` has virtual
address `k * PGSIZE`).  For each page: `ns_walkpgdir` must find a pte
(`panic` otherwise), the pte must be present (`panic` otherwise); then the
page content at the pte's physical address and the pte's flag word are
written, the page write's byte count is checked (`exit` on a short write),
the flag write's byte count is ignored. -/
def sweepLoop {Pg Ctx Tf PR : Type} (env : CkptEnv) (f f2 : Option String) :
    List Nat → CkptSt Pg Ctx Tf PR → Step Pg Ctx Tf PR
  | [], st => .ok st
  | k :: ks, st =>
    match st.pgdir (k * PGSIZE) with
    | none => .panicked .pteMissing st
    | some pte =>
      if !(ptePresent pte) then .panicked .notPresent st
      else
        let pa := pteAddr pte
        let flag := pteFlags pte
        let fileSize := env.pageWriteRes k
        let st1 := writeChunk st f (Chunk.page (st.mem pa))
        let st2 := writeChunk st1 f2 (Chunk.flagw flag)
        if fileSize ≠ (PGSIZE : Int) then
          .exited (pushMsg st2 Msg.errWriteUVM)
        else
          sweepLoop env f f2 ks (pushMsg st2 (Msg.writtenPage k))

/-- Transcribes the UVM section of `sys_isvpcb` (sysfile.c lines 543-578):
open `pages` and `flag` (only the first open's result is checked), run the
sweep loop, then clear the two descriptors and close the handles. -/
def uvmSection {Pg Ctx Tf PR : Type} (env : CkptEnv)
    (st0 : CkptSt Pg Ctx Tf PR) : Step Pg Ctx Tf PR :=
  let op1 := openIfc (env.openOk "pages") st0.ofile "pages"
  let fd := op1.1
  let st1 := {st0 with ofile := op1.2}
  let op2 := openIfc (env.openOk "flag") st1.ofile "flag"
  let fd2 := op2.1
  let st2 := {st1 with ofile := op2.2}
  if fd < 0 then .exited (pushMsg st2 Msg.errCreateUVM)
  else
    let st3 := pushMsg st2 Msg.createdUVM
    let f := getFd st3.ofile fd
    let f2 := getFd st3.ofile fd2
    match sweepLoop env f f2 (List.range (npagesOf st3.sz)) st3 with
    | .panicked k st => .panicked k st
    | .exited st => .exited st
    | .ok st =>
      let st4 := {st with ofile := setFdTbl st.ofile fd none}
      let st5 := {st4 with ofile := setFdTbl st4.ofile fd2 none}
      .ok st5

/-- Transcribes the context section of `sys_isvpcb` (sysfile.c lines
579-599): open `context`, write `*proc->context` as one record of
`sizeof(struct context)` bytes, check the byte count, clear the
descriptor. -/
def contextSection {Pg Ctx Tf PR : Type} (env : CkptEnv)
    (st0 : CkptSt Pg Ctx Tf PR) : Step Pg Ctx Tf PR :=
  let op := openIfc (env.openOk "context") st0.ofile "context"
  let fd := op.1
  let st1 := {st0 with ofile := op.2}
  if fd < 0 then .exited (pushMsg st1 Msg.errCreateCtx)
  else
    let st2 := pushMsg st1 Msg.createdCtx
    let f := getFd st2.ofile fd
    let fileSize := env.ctxWriteRes
    let st3 := writeChunk st2 f (Chunk.ctx st2.ctx)
    if fileSize ≠ (env.szCtx : Int) then .exited (pushMsg st3 Msg.errWriteCtx)
    else
      let st4 := pushMsg st3 Msg.writtenCtx
      .ok {st4 with ofile := setFdTbl st4.ofile fd none}

/-- Transcribes the trap-frame section of `sys_isvpcb` (sysfile.c lines
600-620), analogous to the context section. -/
def tfSection {Pg Ctx Tf PR : Type} (env : CkptEnv)
    (st0 : CkptSt Pg Ctx Tf PR) : Step Pg Ctx Tf PR :=
  let op := openIfc (env.openOk "trapframe") st0.ofile "trapframe"
  let fd := op.1
  let st1 := {st0 with ofile := op.2}
  if fd < 0 then .exited (pushMsg st1 Msg.errCreateTf)
  else
    let st2 := pushMsg st1 Msg.createdTf
    let f := getFd st2.ofile fd
    let fileSize := env.tfWriteRes
    let st3 := writeChunk st2 f (Chunk.tfr st2.tf)
    if fileSize ≠ (env.szTf : Int) then .exited (pushMsg st3 Msg.errWriteTf)
    else
      let st4 := pushMsg st3 Msg.writtenTf
      .ok {st4 with ofile := setFdTbl st4.ofile fd none}

/-- Transcribes the descriptor section of `sys_isvpcb` (sysfile.c lines
621-641): the whole `struct proc` record is written to the `proc`
artifact. -/
def procSection {Pg Ctx Tf PR : Type} (env : CkptEnv)
    (st0 : CkptSt Pg Ctx Tf PR) : Step Pg Ctx Tf PR :=
  let op := openIfc (env.openOk "proc") st0.ofile "proc"
  let fd := op.1
  let st1 := {st0 with ofile := op.2}
  if fd < 0 then .exited (pushMsg st1 Msg.errCreateProc)
  else
    let st2 := pushMsg st1 Msg.createdProc
    let f := getFd st2.ofile fd
    let fileSize := env.procWriteRes
    let st3 := writeChunk st2 f (Chunk.prc st2.prc)
    if fileSize ≠ (env.szProc : Int) then .exited (pushMsg st3 Msg.errWriteProc)
    else
      let st4 := pushMsg st3 Msg.writtenProc
      .ok {st4 with ofile := setFdTbl st4.ofile fd none}

/-- The part of `sys_isvpcb` after the UVM section: the three record
sections in sequence, then `cprintf("*Write is done.*")`,
`kill(proc->pid)` and `exit()`.  `exit()` does not return, so the final
`return 0` of the C function is unreachable and `KOut.returned` is never
produced. -/
def tailSections {Pg Ctx Tf PR : Type} (env : CkptEnv)
    (st : CkptSt Pg Ctx Tf PR) : KOut Pg Ctx Tf PR :=
  match contextSection env st with
  | .panicked k st => .panicked k st
  | .exited st => .exited st
  | .ok st =>
    match tfSection env st with
    | .panicked k st => .panicked k st
    | .exited st => .exited st
    | .ok st =>
      match procSection env st with
      | .panicked k st => .panicked k st
      | .exited st => .exited st
      | .ok st => .exited (pushMsg st Msg.writeDone)

/-- Transcribes `sys_isvpcb` (sysfile.c lines 531-649): print the caller's
pid, run the UVM sweep section and then the three record sections; every
terminating path ends in `exit()` (or a `panic`). -/
def sys_isvpcb {Pg Ctx Tf PR : Type} (env : CkptEnv)
    (st0 : CkptSt Pg Ctx Tf PR) : KOut Pg Ctx Tf PR :=
  let st := pushMsg st0 (Msg.parentPid st0.pid)
  match uvmSection env st with
  | .panicked k st => .panicked k st
  | .exited st => .exited st
  | .ok st => tailSections env st

/-- Contents of the `pages` artifact: the page-content records written
through the `pages` handle, in write order. -/
def pagesArt {Pg Ctx Tf PR : Type}
    (w : List (String × Chunk Pg Ctx Tf PR)) : List Pg :=
  w.filterMap fun e =>
    match e with
    | ("pages", Chunk.page p) => some p
    | _ => none

/-- Contents of the `flag` artifact: the permission words written through
the `flag` handle, in write order. -/
def flagsArt {Pg Ctx Tf PR : Type}
    (w : List (String × Chunk Pg Ctx Tf PR)) : List Nat :=
  w.filterMap fun e =>
    match e with
    | ("flag", Chunk.flagw x) => some x
    | _ => none

/-- Contents of the `context` artifact. -/
def ctxArt {Pg Ctx Tf PR : Type}
    (w : List (String × Chunk Pg Ctx Tf PR)) : List Ctx :=
  w.filterMap fun e =>
    match e with
    | ("context", Chunk.ctx c) => some c
    | _ => none

/-- Contents of the `trapframe` artifact. -/
def tfArt {Pg Ctx Tf PR : Type}
    (w : List (String × Chunk Pg Ctx Tf PR)) : List Tf :=
  w.filterMap fun e =>
    match e with
    | ("trapframe", Chunk.tfr t) => some t
    | _ => none

/-- Contents of the `proc` artifact. -/
def procArt {Pg Ctx Tf PR : Type}
    (w : List (String × Chunk Pg Ctx Tf PR)) : List PR :=
  w.filterMap fun e =>
    match e with
    | ("proc", Chunk.prc r) => some r
    | _ => none

/-- The write log a completed sweep over page indices `ks` produces: for
each index, the page-content block immediately followed by its
permission-flag word. -/
def sweepChunks {Pg Ctx Tf PR : Type} (pgdir : Nat → Option Nat)
    (mem : Nat → Pg) (ks : List Nat) : List (String × Chunk Pg Ctx Tf PR) :=
  (ks.map fun k =>
    match pgdir (k * PGSIZE) with
    | some pte =>
      [("pages", Chunk.page (mem (pteAddr pte))),
       ("flag", Chunk.flagw (pteFlags pte))]
    | none => []).flatten

/-- How the sweep loop stops at a given page index. -/
inductive StopKind
  | pteMissing
  | notPresent
  | shortPage
deriving DecidableEq

/-- The first page index at which the sweep loop stops (missing pte,
non-present page, or short page write), if any. -/
def firstStop (env : CkptEnv) (pgdir : Nat → Option Nat) :
    List Nat → Option (Nat × StopKind)
  | [] => none
  | k :: ks =>
    match pgdir (k * PGSIZE) with
    | none => some (k, .pteMissing)
    | some pte =>
      if !(ptePresent pte) then some (k, .notPresent)
      else if env.pageWriteRes k ≠ (PGSIZE : Int) then some (k, .shortPage)
      else firstStop env pgdir ks

/-- Page `k` is mapped and present. -/
def pteGood (pgdir : Nat → Option Nat) (k : Nat) : Bool :=
  match pgdir (k * PGSIZE) with
  | some pte => ptePresent pte
  | none => false

/-- Whether the sweep over `n` pages hits one of its two panic sites. -/
def sweepPanics (env : CkptEnv) (pgdir : Nat → Option Nat) (n : Nat) : Bool :=
  match firstStop env pgdir (List.range n) with
  | some (_, StopKind.pteMissing) => true
  | some (_, StopKind.notPresent) => true
  | _ => false

/-- Step result shape dictated by a stop kind. -/
def stopOut {Pg Ctx Tf PR : Type} (kind : StopKind)
    (st : CkptSt Pg Ctx Tf PR) : Step Pg Ctx Tf PR :=
  match kind with
  | .pteMissing => .panicked .pteMissing st
  | .notPresent => .panicked .notPresent st
  | .shortPage => .exited st

/-- Outcome is the C `return` statement. -/
def isReturned {Pg Ctx Tf PR : Type} : KOut Pg Ctx Tf PR → Bool
  | .returned _ _ => true
  | _ => false

/-- Outcome is a kernel panic. -/
def isPanicked {Pg Ctx Tf PR : Type} : KOut Pg Ctx Tf PR → Bool
  | .panicked _ _ => true
  | _ => false

/-- The checkpoint ran to its success exit (the `*Write is done.*`
diagnostic was printed before `kill`/`exit`). -/
def succeededB {Pg Ctx Tf PR : Type} : KOut Pg Ctx Tf PR → Bool
  | .exited st => decide (Msg.writeDone ∈ st.console)
  | _ => false

/-- The write log a completed sweep appends when writing through the
handles `f` (pages) and `f2` (flags). -/
def sweepWrites {Pg Ctx Tf PR : Type} (f f2 : Option String)
    (pgdir : Nat → Option Nat) (mem : Nat → Pg) (ks : List Nat) :
    List (String × Chunk Pg Ctx Tf PR) :=
  (ks.map fun k =>
    match pgdir (k * PGSIZE) with
    | some pte =>
      chunkOf f (Chunk.page (mem (pteAddr pte))) ++
        chunkOf f2 (Chunk.flagw (pteFlags pte))
    | none => []).flatten

theorem sweepWrites_eq_sweepChunks {Pg Ctx Tf PR : Type}
    (pgdir : Nat → Option Nat) (mem : Nat → Pg) (ks : List Nat) :
    (sweepWrites (some "pages") (some "flag") pgdir mem ks :
        List (String × Chunk Pg Ctx Tf PR)) =
      sweepChunks pgdir mem ks := by
  induction ks with
  | nil => rfl
  | cons k ks ih =>
    simp only [sweepWrites, sweepChunks, List.map_cons, List.flatten_cons] at ih ⊢
    rw [ih]
    have hhead : (match pgdir (k * PGSIZE) with
        | some pte =>
          chunkOf (some "pages")
              (Chunk.page (mem (pteAddr pte)) : Chunk Pg Ctx Tf PR) ++
            chunkOf (some "flag") (Chunk.flagw (pteFlags pte))
        | none => []) =
        (match pgdir (k * PGSIZE) with
        | some pte =>
          [("pages", Chunk.page (mem (pteAddr pte))),
           ("flag", Chunk.flagw (pteFlags pte))]
        | none => []) := by
      cases pgdir (k * PGSIZE) <;> rfl
    rw [hhead]

/-- `firstStop` finds no stop exactly when every page is mapped, present,
and fully written. -/
theorem firstStop_none_iff (env : CkptEnv) (pgdir : Nat → Option Nat)
    (ks : List Nat) :
    firstStop env pgdir ks = none ↔
      ∀ k ∈ ks, pteGood pgdir k = true ∧
        env.pageWriteRes k = (PGSIZE : Int) := by
  induction ks with
  | nil => simp [firstStop]
  | cons k ks ih =>
    simp only [firstStop]
    cases hp : pgdir (k * PGSIZE) with
    | none => simp [hp, pteGood]
    | some pte =>
      by_cases hpr : ptePresent pte
      · by_cases hw : env.pageWriteRes k = (PGSIZE : Int)
        · simp [hp, hpr, hw, ih, pteGood]
        · simp [hp, hpr, hw, pteGood]
      · simp [hp, hpr, pteGood]

/-- A sweep with no stopping page runs to completion, appending exactly
the interleaved page/flag records and the per-page console messages, and
leaving every other state component unchanged. -/
theorem sweepLoop_ok_of_none {Pg Ctx Tf PR : Type} (env : CkptEnv)
    (f f2 : Option String) (ks : List Nat) (of : List (Option String))
    (w : List (String × Chunk Pg Ctx Tf PR)) (cons : List Msg) (sz : Nat)
    (pgdir : Nat → Option Nat) (mem : Nat → Pg) (pid : Nat) (ctx : Ctx)
    (tf : Tf) (prc : PR) (h : firstStop env pgdir ks = none) :
    sweepLoop env f f2 ks ⟨of, w, cons, sz, pgdir, mem, pid, ctx, tf, prc⟩ =
      .ok ⟨of, w ++ sweepWrites f f2 pgdir mem ks,
           cons ++ ks.map Msg.writtenPage, sz, pgdir, mem, pid, ctx, tf, prc⟩ := by
  induction ks generalizing w cons with
  | nil => simp [sweepLoop, sweepWrites]
  | cons k ks ih =>
    rw [firstStop_none_iff] at h
    obtain ⟨hg, hw⟩ := h k (by simp)
    have h' : firstStop env pgdir ks = none := by
      rw [firstStop_none_iff]
      intro x hx
      exact h x (by simp [hx])
    cases hp : pgdir (k * PGSIZE) with
    | none => simp [pteGood, hp] at hg
    | some pte =>
      have hpr : ptePresent pte = true := by simpa [pteGood, hp] using hg
      simp only [sweepLoop, hp]
      rw [if_neg (by simp [hpr]), if_neg (by simpa using hw)]
      show sweepLoop env f f2 ks
          ⟨of, w ++ chunkOf f (Chunk.page (mem (pteAddr pte))) ++
                chunkOf f2 (Chunk.flagw (pteFlags pte)),
            cons ++ [Msg.writtenPage k], sz, pgdir, mem, pid, ctx, tf, prc⟩ = _
      rw [ih (w ++ chunkOf f (Chunk.page (mem (pteAddr pte))) ++
              chunkOf f2 (Chunk.flagw (pteFlags pte)))
            (cons ++ [Msg.writtenPage k]) h']
      simp [sweepWrites, hp, List.append_assoc]

/-- A sweep that stops does so with the stop kind predicted by
`firstStop`, with the console extended by messages that do not include
the success diagnostic, and with every component other than the write log
and the console unchanged. -/
theorem sweepLoop_stop {Pg Ctx Tf PR : Type} (env : CkptEnv)
    (f f2 : Option String) (ks : List Nat) (of : List (Option String))
    (w : List (String × Chunk Pg Ctx Tf PR)) (cons : List Msg) (sz : Nat)
    (pgdir : Nat → Option Nat) (mem : Nat → Pg) (pid : Nat) (ctx : Ctx)
    (tf : Tf) (prc : PR) (k : Nat) (kind : StopKind)
    (h : firstStop env pgdir ks = some (k, kind)) :
    ∃ w' tail, Msg.writeDone ∉ tail ∧
      sweepLoop env f f2 ks ⟨of, w, cons, sz, pgdir, mem, pid, ctx, tf, prc⟩ =
        stopOut kind ⟨of, w', cons ++ tail, sz, pgdir, mem, pid, ctx, tf, prc⟩ := by
  induction ks generalizing w cons with
  | nil => simp [firstStop] at h
  | cons k' ks ih =>
    simp only [firstStop] at h
    cases hp : pgdir (k' * PGSIZE) with
    | none =>
      simp only [hp, Option.some.injEq, Prod.mk.injEq] at h
      obtain ⟨hk, hkind⟩ := h
      subst hk; subst hkind
      refine ⟨w, [], by simp, ?_⟩
      simp only [sweepLoop, hp]
      simp [stopOut]
    | some pte =>
      simp only [hp] at h
      by_cases hpr : ptePresent pte
      · by_cases hw : env.pageWriteRes k' = (PGSIZE : Int)
        · rw [if_neg (by simp [hpr]), if_neg (by simpa using hw)] at h
          obtain ⟨w', tail, htail, hrun⟩ :=
            ih (w ++ chunkOf f (Chunk.page (mem (pteAddr pte))) ++
                  chunkOf f2 (Chunk.flagw (pteFlags pte)))
               (cons ++ [Msg.writtenPage k']) h
          refine ⟨w', Msg.writtenPage k' :: tail, by simp [htail], ?_⟩
          simp only [sweepLoop, hp]
          rw [if_neg (by simp [hpr]), if_neg (by simpa using hw)]
          show sweepLoop env f f2 ks
              ⟨of, w ++ chunkOf f (Chunk.page (mem (pteAddr pte))) ++
                    chunkOf f2 (Chunk.flagw (pteFlags pte)),
                cons ++ [Msg.writtenPage k'], sz, pgdir, mem, pid, ctx, tf, prc⟩ = _
          rw [hrun]
          have hcons : cons ++ [Msg.writtenPage k'] ++ tail =
              cons ++ (Msg.writtenPage k' :: tail) := by simp
          rw [hcons]
        · rw [if_neg (by simp [hpr]), if_pos (by simpa using hw)] at h
          simp only [Option.some.injEq, Prod.mk.injEq] at h
          obtain ⟨hk, hkind⟩ := h
          subst hk; subst hkind
          refine ⟨w ++ chunkOf f (Chunk.page (mem (pteAddr pte))) ++
                    chunkOf f2 (Chunk.flagw (pteFlags pte)),
                  [Msg.errWriteUVM], by simp, ?_⟩
          simp only [sweepLoop, hp]
          rw [if_neg (by simp [hpr]), if_pos (by simpa using hw)]
          simp [stopOut, pushMsg, writeChunk]
      · rw [if_pos (by simp [hpr])] at h
        simp only [Option.some.injEq, Prod.mk.injEq] at h
        obtain ⟨hk, hkind⟩ := h
        subst hk; subst hkind
        refine ⟨w, [], by simp, ?_⟩
        simp only [sweepLoop, hp]
        rw [if_pos (by simp [hpr])]
        simp [stopOut]

theorem sweepWrites_cons {Pg Ctx Tf PR : Type} (f f2 : Option String)
    (pgdir : Nat → Option Nat) (mem : Nat → Pg) (k : Nat) (ks : List Nat) :
    (sweepWrites f f2 pgdir mem (k :: ks) :
        List (String × Chunk Pg Ctx Tf PR)) =
      (match pgdir (k * PGSIZE) with
        | some pte =>
          chunkOf f (Chunk.page (mem (pteAddr pte))) ++
            chunkOf f2 (Chunk.flagw (pteFlags pte))
        | none => []) ++ sweepWrites f f2 pgdir mem ks := by
  simp [sweepWrites]

theorem pagesArt_append {Pg Ctx Tf PR : Type}
    (a b : List (String × Chunk Pg Ctx Tf PR)) :
    pagesArt (a ++ b) = pagesArt a ++ pagesArt b := by
  simp [pagesArt]

theorem flagsArt_append {Pg Ctx Tf PR : Type}
    (a b : List (String × Chunk Pg Ctx Tf PR)) :
    flagsArt (a ++ b) = flagsArt a ++ flagsArt b := by
  simp [flagsArt]

theorem ctxArt_append {Pg Ctx Tf PR : Type}
    (a b : List (String × Chunk Pg Ctx Tf PR)) :
    ctxArt (a ++ b) = ctxArt a ++ ctxArt b := by
  simp [ctxArt]

theorem tfArt_append {Pg Ctx Tf PR : Type}
    (a b : List (String × Chunk Pg Ctx Tf PR)) :
    tfArt (a ++ b) = tfArt a ++ tfArt b := by
  simp [tfArt]

theorem procArt_append {Pg Ctx Tf PR : Type}
    (a b : List (String × Chunk Pg Ctx Tf PR)) :
    procArt (a ++ b) = procArt a ++ procArt b := by
  simp [procArt]

/-- The `pages` artifact a completed sweep produces: one content block
per page index, in index order. -/
theorem pagesArt_sweepPF {Pg Ctx Tf PR : Type} (pgdir : Nat → Option Nat)
    (mem : Nat → Pg) (ks : List Nat) :
    pagesArt (sweepWrites (some "pages") (some "flag") pgdir mem ks :
        List (String × Chunk Pg Ctx Tf PR)) =
      ks.filterMap fun k => (pgdir (k * PGSIZE)).map fun e => mem (pteAddr e) := by
  induction ks with
  | nil => rfl
  | cons k ks ih =>
    rw [sweepWrites_cons, pagesArt_append, ih, List.filterMap_cons]
    cases hp : pgdir (k * PGSIZE) <;> simp [hp, pagesArt, chunkOf]

/-- The `flag` artifact a completed sweep produces: one permission word
per page index, in index order. -/
theorem flagsArt_sweepPF {Pg Ctx Tf PR : Type} (pgdir : Nat → Option Nat)
    (mem : Nat → Pg) (ks : List Nat) :
    flagsArt (sweepWrites (some "pages") (some "flag") pgdir mem ks :
        List (String × Chunk Pg Ctx Tf PR)) =
      ks.filterMap fun k => (pgdir (k * PGSIZE)).map fun e => pteFlags e := by
  induction ks with
  | nil => rfl
  | cons k ks ih =>
    rw [sweepWrites_cons, flagsArt_append, ih, List.filterMap_cons]
    cases hp : pgdir (k * PGSIZE) <;> simp [hp, flagsArt, chunkOf]

theorem ctxArt_sweepPF {Pg Ctx Tf PR : Type} (pgdir : Nat → Option Nat)
    (mem : Nat → Pg) (ks : List Nat) :
    ctxArt (sweepWrites (some "pages") (some "flag") pgdir mem ks :
        List (String × Chunk Pg Ctx Tf PR)) = [] := by
  induction ks with
  | nil => rfl
  | cons k ks ih =>
    rw [sweepWrites_cons, ctxArt_append, ih]
    cases hp : pgdir (k * PGSIZE) <;> simp [ctxArt, chunkOf]

theorem tfArt_sweepPF {Pg Ctx Tf PR : Type} (pgdir : Nat → Option Nat)
    (mem : Nat → Pg) (ks : List Nat) :
    tfArt (sweepWrites (some "pages") (some "flag") pgdir mem ks :
        List (String × Chunk Pg Ctx Tf PR)) = [] := by
  induction ks with
  | nil => rfl
  | cons k ks ih =>
    rw [sweepWrites_cons, tfArt_append, ih]
    cases hp : pgdir (k * PGSIZE) <;> simp [tfArt, chunkOf]

theorem procArt_sweepPF {Pg Ctx Tf PR : Type} (pgdir : Nat → Option Nat)
    (mem : Nat → Pg) (ks : List Nat) :
    procArt (sweepWrites (some "pages") (some "flag") pgdir mem ks :
        List (String × Chunk Pg Ctx Tf PR)) = [] := by
  induction ks with
  | nil => rfl
  | cons k ks ih =>
    rw [sweepWrites_cons, procArt_append, ih]
    cases hp : pgdir (k * PGSIZE) <;> simp [procArt, chunkOf]

theorem length_filterMap_of_isSome {α β : Type} (o : α → Option β)
    (ks : List α) (h : ∀ k ∈ ks, (o k).isSome = true) :
    (ks.filterMap o).length = ks.length := by
  induction ks with
  | nil => rfl
  | cons k ks ih =>
    have hk := h k (by simp)
    cases ho : o k with
    | none => rw [ho] at hk; simp at hk
    | some v =>
      rw [List.filterMap_cons, ho]
      simp only [List.length_cons]
      rw [ih fun x hx => h x (by simp [hx])]

/-!
Concrete open-file-table computations used by the section lemmas: the
two artifact opens of the UVM section allocate descriptors 0 and 1 of an
initially free table, the later single opens allocate descriptor 0, and
the descriptor clears restore the free table.
-/

theorem openIfc_fail (tbl : List (Option String)) (nm : String) :
    openIfc false tbl nm = (-1, tbl) := rfl

theorem openIfc_empty (nm : String) :
    openIfc true emptyOfile nm = (0, some nm :: List.replicate 15 none) := rfl

theorem openIfc_second (nm nm2 : String) :
    openIfc true (some nm :: List.replicate 15 none) nm2 =
      (1, some nm :: some nm2 :: List.replicate 14 none) := rfl

theorem getFd_zero (nm : String) (r : List (Option String)) :
    getFd (some nm :: r) 0 = some nm := rfl

theorem getFd_one (a : Option String) (nm : String)
    (r : List (Option String)) : getFd (a :: some nm :: r) 1 = some nm := rfl

theorem setFdTbl_restore_one (nm : String) :
    setFdTbl (some nm :: List.replicate 15 none) 0 none = emptyOfile := rfl

theorem setFdTbl_restore_two (nm nm2 : String) :
    setFdTbl (setFdTbl (some nm :: some nm2 :: List.replicate 14 none) 0 none)
        1 none = emptyOfile := rfl

/-- The UVM section on a free table, with both opens succeeding and no
stopping page: it completes, appends the sweep's write log and console
messages, and restores the open-file table. -/
theorem uvmSection_ok {Pg Ctx Tf PR : Type} (env : CkptEnv)
    (w : List (String × Chunk Pg Ctx Tf PR)) (cons : List Msg) (sz : Nat)
    (pgdir : Nat → Option Nat) (mem : Nat → Pg) (pid : Nat) (ctx : Ctx)
    (tf : Tf) (prc : PR)
    (hpg : env.openOk "pages" = true) (hfl : env.openOk "flag" = true)
    (hnone : firstStop env pgdir (List.range (npagesOf sz)) = none) :
    uvmSection env ⟨emptyOfile, w, cons, sz, pgdir, mem, pid, ctx, tf, prc⟩ =
      .ok ⟨emptyOfile,
           w ++ sweepWrites (some "pages") (some "flag") pgdir mem
                  (List.range (npagesOf sz)),
           cons ++ Msg.createdUVM :: (List.range (npagesOf sz)).map Msg.writtenPage,
           sz, pgdir, mem, pid, ctx, tf, prc⟩ := by
  simp only [uvmSection, hpg, hfl, openIfc_empty, openIfc_second, getFd_zero,
    getFd_one]
  rw [if_neg (by norm_num)]
  show (match sweepLoop env (some "pages") (some "flag")
      (List.range (npagesOf sz))
      ⟨some "pages" :: some "flag" :: List.replicate 14 none, w,
        cons ++ [Msg.createdUVM], sz, pgdir, mem, pid, ctx, tf, prc⟩ with
    | Step.panicked k st => Step.panicked k st
    | Step.exited st => Step.exited st
    | Step.ok st =>
      Step.ok {{st with ofile := setFdTbl st.ofile 0 none} with
        ofile := setFdTbl {st with ofile := setFdTbl st.ofile 0 none}.ofile 1 none}) = _
  rw [sweepLoop_ok_of_none env (some "pages") (some "flag")
    (List.range (npagesOf sz)) (some "pages" :: some "flag" :: List.replicate 14 none)
    w (cons ++ [Msg.createdUVM]) sz pgdir mem pid ctx tf prc hnone]
  simp [setFdTbl_restore_two]
  rfl

/-- The UVM section on a free table, with both opens succeeding and a
stopping page: it stops with the predicted kind, extending the console
only with messages other than the success diagnostic. -/
theorem uvmSection_stop {Pg Ctx Tf PR : Type} (env : CkptEnv)
    (w : List (String × Chunk Pg Ctx Tf PR)) (cons : List Msg) (sz : Nat)
    (pgdir : Nat → Option Nat) (mem : Nat → Pg) (pid : Nat) (ctx : Ctx)
    (tf : Tf) (prc : PR) (k : Nat) (kind : StopKind)
    (hpg : env.openOk "pages" = true) (hfl : env.openOk "flag" = true)
    (hs : firstStop env pgdir (List.range (npagesOf sz)) = some (k, kind)) :
    ∃ w' tail, Msg.writeDone ∉ tail ∧
      uvmSection env ⟨emptyOfile, w, cons, sz, pgdir, mem, pid, ctx, tf, prc⟩ =
        stopOut kind ⟨some "pages" :: some "flag" :: List.replicate 14 none,
          w', cons ++ tail, sz, pgdir, mem, pid, ctx, tf, prc⟩ := by
  obtain ⟨w', tail, htail, hrun⟩ :=
    sweepLoop_stop env (some "pages") (some "flag")
      (List.range (npagesOf sz))
      (some "pages" :: some "flag" :: List.replicate 14 none)
      w (cons ++ [Msg.createdUVM]) sz pgdir mem pid ctx tf prc k kind hs
  refine ⟨w', Msg.createdUVM :: tail, by simp [htail], ?_⟩
  simp only [uvmSection, hpg, hfl, openIfc_empty, openIfc_second, getFd_zero,
    getFd_one]
  rw [if_neg (by norm_num)]
  show (match sweepLoop env (some "pages") (some "flag")
      (List.range (npagesOf sz))
      ⟨some "pages" :: some "flag" :: List.replicate 14 none, w,
        cons ++ [Msg.createdUVM], sz, pgdir, mem, pid, ctx, tf, prc⟩ with
    | Step.panicked k st => Step.panicked k st
    | Step.exited st => Step.exited st
    | Step.ok st =>
      Step.ok {{st with ofile := setFdTbl st.ofile 0 none} with
        ofile := setFdTbl {st with ofile := setFdTbl st.ofile 0 none}.ofile 1 none}) = _
  rw [hrun]
  cases kind <;> simp [stopOut]

/-- The UVM section when the `pages` open fails: the caller exits with the
UVM-creation diagnostic (the `flag` handle, opened before the check, stays
in the table). -/
theorem uvmSection_openfail {Pg Ctx Tf PR : Type} (env : CkptEnv)
    (w : List (String × Chunk Pg Ctx Tf PR)) (cons : List Msg) (sz : Nat)
    (pgdir : Nat → Option Nat) (mem : Nat → Pg) (pid : Nat) (ctx : Ctx)
    (tf : Tf) (prc : PR)
    (hpg : env.openOk "pages" = false) (hfl : env.openOk "flag" = true) :
    uvmSection env ⟨emptyOfile, w, cons, sz, pgdir, mem, pid, ctx, tf, prc⟩ =
      .exited ⟨some "flag" :: List.replicate 15 none, w,
        cons ++ [Msg.errCreateUVM], sz, pgdir, mem, pid, ctx, tf, prc⟩ := by
  simp only [uvmSection, hpg, hfl, openIfc_fail, openIfc_empty]
  rw [if_pos (by norm_num)]
  rfl

/-- The context section on a free table: its outcome is decided by the
`context` open and the context write's byte count alone. -/
theorem contextSection_eq {Pg Ctx Tf PR : Type} (env : CkptEnv)
    (w : List (String × Chunk Pg Ctx Tf PR)) (cons : List Msg) (sz : Nat)
    (pgdir : Nat → Option Nat) (mem : Nat → Pg) (pid : Nat) (ctx : Ctx)
    (tf : Tf) (prc : PR) :
    contextSection env ⟨emptyOfile, w, cons, sz, pgdir, mem, pid, ctx, tf, prc⟩ =
      if env.openOk "context" = true then
        (if env.ctxWriteRes = (env.szCtx : Int) then
          Step.ok ⟨emptyOfile, w ++ [("context", Chunk.ctx ctx)],
            cons ++ [Msg.createdCtx, Msg.writtenCtx], sz, pgdir, mem, pid,
            ctx, tf, prc⟩
        else
          Step.exited ⟨some "context" :: List.replicate 15 none,
            w ++ [("context", Chunk.ctx ctx)],
            cons ++ [Msg.createdCtx, Msg.errWriteCtx], sz, pgdir, mem, pid,
            ctx, tf, prc⟩)
      else
        Step.exited ⟨emptyOfile, w, cons ++ [Msg.errCreateCtx], sz, pgdir,
          mem, pid, ctx, tf, prc⟩ := by
  by_cases h1 : env.openOk "context" = true
  · simp only [contextSection, h1, openIfc_empty, getFd_zero, if_pos]
    rw [if_neg (by norm_num)]
    by_cases h2 : env.ctxWriteRes = (env.szCtx : Int)
    · rw [if_neg (by simpa using h2), if_pos h2]
      simp [writeChunk, pushMsg, chunkOf, setFdTbl_restore_one]
      exact ⟨rfl, rfl⟩
    · rw [if_pos (by simpa using h2), if_neg h2]
      simp [writeChunk, pushMsg, chunkOf]
      rfl
  · simp only [contextSection, Bool.not_eq_true] at h1 ⊢
    simp only [h1, openIfc_fail]
    rw [if_pos (by norm_num), if_neg (by simp [h1])]
    rfl

/-- The trap-frame section on a free table. -/
theorem tfSection_eq {Pg Ctx Tf PR : Type} (env : CkptEnv)
    (w : List (String × Chunk Pg Ctx Tf PR)) (cons : List Msg) (sz : Nat)
    (pgdir : Nat → Option Nat) (mem : Nat → Pg) (pid : Nat) (ctx : Ctx)
    (tf : Tf) (prc : PR) :
    tfSection env ⟨emptyOfile, w, cons, sz, pgdir, mem, pid, ctx, tf, prc⟩ =
      if env.openOk "trapframe" = true then
        (if env.tfWriteRes = (env.szTf : Int) then
          Step.ok ⟨emptyOfile, w ++ [("trapframe", Chunk.tfr tf)],
            cons ++ [Msg.createdTf, Msg.writtenTf], sz, pgdir, mem, pid,
            ctx, tf, prc⟩
        else
          Step.exited ⟨some "trapframe" :: List.replicate 15 none,
            w ++ [("trapframe", Chunk.tfr tf)],
            cons ++ [Msg.createdTf, Msg.errWriteTf], sz, pgdir, mem, pid,
            ctx, tf, prc⟩)
      else
        Step.exited ⟨emptyOfile, w, cons ++ [Msg.errCreateTf], sz, pgdir,
          mem, pid, ctx, tf, prc⟩ := by
  by_cases h1 : env.openOk "trapframe" = true
  · simp only [tfSection, h1, openIfc_empty, getFd_zero, if_pos]
    rw [if_neg (by norm_num)]
    by_cases h2 : env.tfWriteRes = (env.szTf : Int)
    · rw [if_neg (by simpa using h2), if_pos h2]
      simp [writeChunk, pushMsg, chunkOf, setFdTbl_restore_one]
      exact ⟨rfl, rfl⟩
    · rw [if_pos (by simpa using h2), if_neg h2]
      simp [writeChunk, pushMsg, chunkOf]
      rfl
  · simp only [tfSection, Bool.not_eq_true] at h1 ⊢
    simp only [h1, openIfc_fail]
    rw [if_pos (by norm_num), if_neg (by simp [h1])]
    rfl

/-- The descriptor section on a free table. -/
theorem procSection_eq {Pg Ctx Tf PR : Type} (env : CkptEnv)
    (w : List (String × Chunk Pg Ctx Tf PR)) (cons : List Msg) (sz : Nat)
    (pgdir : Nat → Option Nat) (mem : Nat → Pg) (pid : Nat) (ctx : Ctx)
    (tf : Tf) (prc : PR) :
    procSection env ⟨emptyOfile, w, cons, sz, pgdir, mem, pid, ctx, tf, prc⟩ =
      if env.openOk "proc" = true then
        (if env.procWriteRes = (env.szProc : Int) then
          Step.ok ⟨emptyOfile, w ++ [("proc", Chunk.prc prc)],
            cons ++ [Msg.createdProc, Msg.writtenProc], sz, pgdir, mem, pid,
            ctx, tf, prc⟩
        else
          Step.exited ⟨some "proc" :: List.replicate 15 none,
            w ++ [("proc", Chunk.prc prc)],
            cons ++ [Msg.createdProc, Msg.errWriteProc], sz, pgdir, mem, pid,
            ctx, tf, prc⟩)
      else
        Step.exited ⟨emptyOfile, w, cons ++ [Msg.errCreateProc], sz, pgdir,
          mem, pid, ctx, tf, prc⟩ := by
  by_cases h1 : env.openOk "proc" = true
  · simp only [procSection, h1, openIfc_empty, getFd_zero, if_pos]
    rw [if_neg (by norm_num)]
    by_cases h2 : env.procWriteRes = (env.szProc : Int)
    · rw [if_neg (by simpa using h2), if_pos h2]
      simp [writeChunk, pushMsg, chunkOf, setFdTbl_restore_one]
      exact ⟨rfl, rfl⟩
    · rw [if_pos (by simpa using h2), if_neg h2]
      simp [writeChunk, pushMsg, chunkOf]
      rfl
  · simp only [procSection, Bool.not_eq_true] at h1 ⊢
    simp only [h1, openIfc_fail]
    rw [if_pos (by norm_num), if_neg (by simp [h1])]
    rfl

/-- The context section never panics. -/
theorem contextSection_shape {Pg Ctx Tf PR : Type} (env : CkptEnv)
    (st : CkptSt Pg Ctx Tf PR) :
    (∃ s, contextSection env st = Step.exited s) ∨
      (∃ s, contextSection env st = Step.ok s) := by
  simp only [contextSection]
  split
  · exact Or.inl ⟨_, rfl⟩
  · split
    · exact Or.inl ⟨_, rfl⟩
    · exact Or.inr ⟨_, rfl⟩

/-- The trap-frame section never panics. -/
theorem tfSection_shape {Pg Ctx Tf PR : Type} (env : CkptEnv)
    (st : CkptSt Pg Ctx Tf PR) :
    (∃ s, tfSection env st = Step.exited s) ∨
      (∃ s, tfSection env st = Step.ok s) := by
  simp only [tfSection]
  split
  · exact Or.inl ⟨_, rfl⟩
  · split
    · exact Or.inl ⟨_, rfl⟩
    · exact Or.inr ⟨_, rfl⟩

/-- The descriptor section never panics. -/
theorem procSection_shape {Pg Ctx Tf PR : Type} (env : CkptEnv)
    (st : CkptSt Pg Ctx Tf PR) :
    (∃ s, procSection env st = Step.exited s) ∨
      (∃ s, procSection env st = Step.ok s) := by
  simp only [procSection]
  split
  · exact Or.inl ⟨_, rfl⟩
  · split
    · exact Or.inl ⟨_, rfl⟩
    · exact Or.inr ⟨_, rfl⟩

/-- No path of the record sections reaches the C `return` statement. -/
theorem tailSections_not_returned {Pg Ctx Tf PR : Type} (env : CkptEnv)
    (st : CkptSt Pg Ctx Tf PR) :
    isReturned (tailSections env st) = false := by
  rcases contextSection_shape env st with ⟨s, hs⟩ | ⟨s, hs⟩
  · simp [tailSections, hs, isReturned]
  · rcases tfSection_shape env s with ⟨s2, hs2⟩ | ⟨s2, hs2⟩
    · simp [tailSections, hs, hs2, isReturned]
    · rcases procSection_shape env s2 with ⟨s3, hs3⟩ | ⟨s3, hs3⟩ <;>
        simp [tailSections, hs, hs2, hs3, isReturned]

/-- The record sections never panic. -/
theorem tailSections_not_panicked {Pg Ctx Tf PR : Type} (env : CkptEnv)
    (st : CkptSt Pg Ctx Tf PR) :
    isPanicked (tailSections env st) = false := by
  rcases contextSection_shape env st with ⟨s, hs⟩ | ⟨s, hs⟩
  · simp [tailSections, hs, isPanicked]
  · rcases tfSection_shape env s with ⟨s2, hs2⟩ | ⟨s2, hs2⟩
    · simp [tailSections, hs, hs2, isPanicked]
    · rcases procSection_shape env s2 with ⟨s3, hs3⟩ | ⟨s3, hs3⟩ <;>
        simp [tailSections, hs, hs2, hs3, isPanicked]

/-- The record sections under an all-successful environment: the three
records are appended in order and the success diagnostic is printed. -/
theorem tailSections_all_ok {Pg Ctx Tf PR : Type} (env : CkptEnv)
    (w : List (String × Chunk Pg Ctx Tf PR)) (cons : List Msg) (sz : Nat)
    (pgdir : Nat → Option Nat) (mem : Nat → Pg) (pid : Nat) (ctx : Ctx)
    (tf : Tf) (prc : PR)
    (h1 : env.openOk "context" = true) (h2 : env.ctxWriteRes = (env.szCtx : Int))
    (h3 : env.openOk "trapframe" = true) (h4 : env.tfWriteRes = (env.szTf : Int))
    (h5 : env.openOk "proc" = true) (h6 : env.procWriteRes = (env.szProc : Int)) :
    tailSections env ⟨emptyOfile, w, cons, sz, pgdir, mem, pid, ctx, tf, prc⟩ =
      KOut.exited ⟨emptyOfile,
        w ++ [("context", Chunk.ctx ctx)] ++ [("trapframe", Chunk.tfr tf)] ++
          [("proc", Chunk.prc prc)],
        cons ++ [Msg.createdCtx, Msg.writtenCtx] ++
          [Msg.createdTf, Msg.writtenTf] ++
          [Msg.createdProc, Msg.writtenProc] ++ [Msg.writeDone],
        sz, pgdir, mem, pid, ctx, tf, prc⟩ := by
  have hc := contextSection_eq env w cons sz pgdir mem pid ctx tf prc
  rw [if_pos h1, if_pos h2] at hc
  have ht := tfSection_eq env (w ++ [("context", Chunk.ctx ctx)])
    (cons ++ [Msg.createdCtx, Msg.writtenCtx]) sz pgdir mem pid ctx tf prc
  rw [if_pos h3, if_pos h4] at ht
  have hq := procSection_eq env
    (w ++ [("context", Chunk.ctx ctx)] ++ [("trapframe", Chunk.tfr tf)])
    (cons ++ [Msg.createdCtx, Msg.writtenCtx] ++ [Msg.createdTf, Msg.writtenTf])
    sz pgdir mem pid ctx tf prc
  rw [if_pos h5, if_pos h6] at hq
  simp only [tailSections, hc, ht, hq, pushMsg]

/-- Success of the record sections is equivalent to all three opens and
all three record writes succeeding. -/
theorem tailSections_succeededB {Pg Ctx Tf PR : Type} (env : CkptEnv)
    (w : List (String × Chunk Pg Ctx Tf PR)) (cons : List Msg) (sz : Nat)
    (pgdir : Nat → Option Nat) (mem : Nat → Pg) (pid : Nat) (ctx : Ctx)
    (tf : Tf) (prc : PR) (hcons : Msg.writeDone ∉ cons) :
    succeededB (tailSections env
        ⟨emptyOfile, w, cons, sz, pgdir, mem, pid, ctx, tf, prc⟩) = true ↔
      (env.openOk "context" = true ∧ env.ctxWriteRes = (env.szCtx : Int) ∧
       env.openOk "trapframe" = true ∧ env.tfWriteRes = (env.szTf : Int) ∧
       env.openOk "proc" = true ∧ env.procWriteRes = (env.szProc : Int)) := by
  by_cases h1 : env.openOk "context" = true
  · have hc := contextSection_eq env w cons sz pgdir mem pid ctx tf prc
    rw [if_pos h1] at hc
    by_cases h2 : env.ctxWriteRes = (env.szCtx : Int)
    · rw [if_pos h2] at hc
      by_cases h3 : env.openOk "trapframe" = true
      · have ht := tfSection_eq env (w ++ [("context", Chunk.ctx ctx)])
          (cons ++ [Msg.createdCtx, Msg.writtenCtx]) sz pgdir mem pid ctx tf prc
        rw [if_pos h3] at ht
        by_cases h4 : env.tfWriteRes = (env.szTf : Int)
        · rw [if_pos h4] at ht
          by_cases h5 : env.openOk "proc" = true
          · have hq := procSection_eq env
              (w ++ [("context", Chunk.ctx ctx)] ++ [("trapframe", Chunk.tfr tf)])
              (cons ++ [Msg.createdCtx, Msg.writtenCtx] ++
                [Msg.createdTf, Msg.writtenTf]) sz pgdir mem pid ctx tf prc
            rw [if_pos h5] at hq
            by_cases h6 : env.procWriteRes = (env.szProc : Int)
            · rw [if_pos h6] at hq
              simp only [tailSections, hc, ht, hq, pushMsg, succeededB]
              simp [h1, h2, h3, h4, h5, h6]
            · rw [if_neg h6] at hq
              simp only [tailSections, hc, ht, hq, succeededB]
              simp [h6, hcons]
          · have h5' : env.openOk "proc" = false := by simpa using h5
            have hq := procSection_eq env
              (w ++ [("context", Chunk.ctx ctx)] ++ [("trapframe", Chunk.tfr tf)])
              (cons ++ [Msg.createdCtx, Msg.writtenCtx] ++
                [Msg.createdTf, Msg.writtenTf]) sz pgdir mem pid ctx tf prc
            rw [if_neg (by simp [h5'])] at hq
            simp only [tailSections, hc, ht, hq, succeededB]
            simp [h5', hcons]
        · rw [if_neg h4] at ht
          simp only [tailSections, hc, ht, succeededB]
          simp [h4, hcons]
      · have h3' : env.openOk "trapframe" = false := by simpa using h3
        have ht := tfSection_eq env (w ++ [("context", Chunk.ctx ctx)])
          (cons ++ [Msg.createdCtx, Msg.writtenCtx]) sz pgdir mem pid ctx tf prc
        rw [if_neg (by simp [h3'])] at ht
        simp only [tailSections, hc, ht, succeededB]
        simp [h3', hcons]
    · rw [if_neg h2] at hc
      simp only [tailSections, hc, succeededB]
      simp [h2, hcons]
  · have h1' : env.openOk "context" = false := by simpa using h1
    have hc := contextSection_eq env w cons sz pgdir mem pid ctx tf prc
    rw [if_neg (by simp [h1'])] at hc
    simp only [tailSections, hc, succeededB]
    simp [h1', hcons]

/-- Success of the whole checkpoint on a free table with an empty console
is equivalent to: the four checked opens succeed, every page is mapped,
present and fully written, and the three record writes are complete.  The
results of the permission-flag writes and of the `flag` open check do not
appear: the code never checks them. -/
theorem isvpcb_succeededB {Pg Ctx Tf PR : Type} (env : CkptEnv)
    (w : List (String × Chunk Pg Ctx Tf PR)) (sz : Nat)
    (pgdir : Nat → Option Nat) (mem : Nat → Pg) (pid : Nat) (ctx : Ctx)
    (tf : Tf) (prc : PR) (hfl : env.openOk "flag" = true) :
    succeededB (sys_isvpcb env
        ⟨emptyOfile, w, [], sz, pgdir, mem, pid, ctx, tf, prc⟩) = true ↔
      (env.openOk "pages" = true ∧
       firstStop env pgdir (List.range (npagesOf sz)) = none ∧
       env.openOk "context" = true ∧ env.ctxWriteRes = (env.szCtx : Int) ∧
       env.openOk "trapframe" = true ∧ env.tfWriteRes = (env.szTf : Int) ∧
       env.openOk "proc" = true ∧ env.procWriteRes = (env.szProc : Int)) := by
  by_cases hpg : env.openOk "pages" = true
  · cases hfs : firstStop env pgdir (List.range (npagesOf sz)) with
    | none =>
      have hu := uvmSection_ok env w [Msg.parentPid pid] sz pgdir mem pid ctx
        tf prc hpg hfl hfs
      simp only [sys_isvpcb, pushMsg, List.nil_append, hu]
      rw [tailSections_succeededB env
        (w ++ sweepWrites (some "pages") (some "flag") pgdir mem
          (List.range (npagesOf sz)))
        ([Msg.parentPid pid] ++ Msg.createdUVM ::
          (List.range (npagesOf sz)).map Msg.writtenPage)
        sz pgdir mem pid ctx tf prc (by simp)]
      simp [hpg, hfs]
    | some p =>
      obtain ⟨k, kind⟩ := p
      obtain ⟨w', tail, htail, hu⟩ := uvmSection_stop env w
        [Msg.parentPid pid] sz pgdir mem pid ctx tf prc k kind hpg hfl hfs
      simp only [sys_isvpcb, pushMsg, List.nil_append, hu]
      cases kind
      · simp [stopOut, succeededB, hfs]
      · simp [stopOut, succeededB, hfs]
      · simp [stopOut, succeededB, hfs, htail]
  · have hpg' : env.openOk "pages" = false := by simpa using hpg
    have hu := uvmSection_openfail env w [Msg.parentPid pid] sz pgdir mem pid
      ctx tf prc hpg' hfl
    simp only [sys_isvpcb, pushMsg, List.nil_append, hu]
    simp [succeededB, hpg']

theorem openIfc_cases (ok : Bool) (tbl : List (Option String)) (nm : String) :
    (ok = true ∧ ∃ i tbl', fdalloc tbl nm = some (i, tbl') ∧
        openIfc ok tbl nm = (((i : Nat) : Int), tbl')) ∨
      openIfc ok tbl nm = (-1, tbl) := by
  cases ok with
  | false => exact Or.inr rfl
  | true =>
    cases hf : fdalloc tbl nm with
    | none => exact Or.inr (by simp [openIfc, hf])
    | some p => exact Or.inl ⟨rfl, p.1, p.2, by simp [hf], by simp [openIfc, hf]⟩

theorem setFdTbl_natCast (tbl : List (Option String)) (i : Nat)
    (v : Option String) : setFdTbl tbl ((i : Nat) : Int) v = tbl.set i v := by
  rw [setFdTbl, if_neg (by omega)]
  simp

theorem setFdTbl_negOne (tbl : List (Option String)) (v : Option String) :
    setFdTbl tbl (-1) v = tbl := rfl

theorem getFd_natCast (tbl : List (Option String)) (i : Nat) :
    getFd tbl ((i : Nat) : Int) = tbl.getD i none := by
  rw [getFd, if_neg (by omega)]
  simp

theorem getFd_negOne (tbl : List (Option String)) : getFd tbl (-1) = none := rfl

theorem pgdir_isSome_of_good (pgdir : Nat → Option Nat) (k : Nat)
    (h : pteGood pgdir k = true) : (pgdir (k * PGSIZE)).isSome = true := by
  cases hp : pgdir (k * PGSIZE) with
  | none => simp [pteGood, hp] at h
  | some pte => simp

theorem firstStop_kind_good (env : CkptEnv) (pgdir : Nat → Option Nat)
    (ks : List Nat) (k : Nat) (kind : StopKind)
    (h : firstStop env pgdir ks = some (k, kind))
    (hg : ∀ x ∈ ks, pteGood pgdir x = true) : kind = StopKind.shortPage := by
  induction ks with
  | nil => simp [firstStop] at h
  | cons a ks ih =>
    simp only [firstStop] at h
    cases hp : pgdir (a * PGSIZE) with
    | none =>
      have := hg a (by simp)
      simp [pteGood, hp] at this
    | some pte =>
      simp only [hp] at h
      have hpr : ptePresent pte = true := by
        have := hg a (by simp)
        simpa [pteGood, hp] using this
      rw [if_neg (by simp [hpr])] at h
      by_cases hw : env.pageWriteRes a = (PGSIZE : Int)
      · rw [if_neg (by simpa using hw)] at h
        exact ih h fun x hx => hg x (by simp [hx])
      · rw [if_pos (by simpa using hw)] at h
        simp only [Option.some.injEq, Prod.mk.injEq] at h
        exact h.2.symm

theorem sweepPanics_false_of_good (env : CkptEnv) (pgdir : Nat → Option Nat)
    (n : Nat) (h : ∀ k, k < n → pteGood pgdir k = true) :
    sweepPanics env pgdir n = false := by
  unfold sweepPanics
  cases hfs : firstStop env pgdir (List.range n) with
  | none => rfl
  | some p =>
    obtain ⟨k, kind⟩ := p
    have hkind : kind = StopKind.shortPage :=
      firstStop_kind_good env pgdir _ k kind hfs fun x hx =>
        h x (by simpa using hx)
    subst hkind
    rfl

theorem pagesArt_recCtx {Pg Ctx Tf PR : Type} (c : Ctx) :
    pagesArt [(("context" : String), (Chunk.ctx c : Chunk Pg Ctx Tf PR))] = [] := rfl

theorem pagesArt_recTf {Pg Ctx Tf PR : Type} (t : Tf) :
    pagesArt [(("trapframe" : String), (Chunk.tfr t : Chunk Pg Ctx Tf PR))] = [] := rfl

theorem pagesArt_recPrc {Pg Ctx Tf PR : Type} (r : PR) :
    pagesArt [(("proc" : String), (Chunk.prc r : Chunk Pg Ctx Tf PR))] = [] := rfl

theorem flagsArt_recCtx {Pg Ctx Tf PR : Type} (c : Ctx) :
    flagsArt [(("context" : String), (Chunk.ctx c : Chunk Pg Ctx Tf PR))] = [] := rfl

theorem flagsArt_recTf {Pg Ctx Tf PR : Type} (t : Tf) :
    flagsArt [(("trapframe" : String), (Chunk.tfr t : Chunk Pg Ctx Tf PR))] = [] := rfl

theorem flagsArt_recPrc {Pg Ctx Tf PR : Type} (r : PR) :
    flagsArt [(("proc" : String), (Chunk.prc r : Chunk Pg Ctx Tf PR))] = [] := rfl

theorem ctxArt_recCtx {Pg Ctx Tf PR : Type} (c : Ctx) :
    ctxArt [(("context" : String), (Chunk.ctx c : Chunk Pg Ctx Tf PR))] = [c] := rfl

theorem ctxArt_recTf {Pg Ctx Tf PR : Type} (t : Tf) :
    ctxArt
      [(("trapframe" : String), (Chunk.tfr t : Chunk Pg Ctx Tf PR))] = [] := rfl

theorem ctxArt_recPrc {Pg Ctx Tf PR : Type} (r : PR) :
    ctxArt
      [(("proc" : String), (Chunk.prc r : Chunk Pg Ctx Tf PR))] = [] := rfl

theorem tfArt_recCtx {Pg Ctx Tf PR : Type} (c : Ctx) :
    tfArt
      [(("context" : String), (Chunk.ctx c : Chunk Pg Ctx Tf PR))] = [] := rfl

theorem tfArt_recTf {Pg Ctx Tf PR : Type} (t : Tf) :
    tfArt [(("trapframe" : String), (Chunk.tfr t : Chunk Pg Ctx Tf PR))] = [t] := rfl

theorem tfArt_recPrc {Pg Ctx Tf PR : Type} (r : PR) :
    tfArt
      [(("proc" : String), (Chunk.prc r : Chunk Pg Ctx Tf PR))] = [] := rfl

theorem procArt_recCtx {Pg Ctx Tf PR : Type} (c : Ctx) :
    procArt
      [(("context" : String), (Chunk.ctx c : Chunk Pg Ctx Tf PR))] = [] := rfl

theorem procArt_recTf {Pg Ctx Tf PR : Type} (t : Tf) :
    procArt
      [(("trapframe" : String), (Chunk.tfr t : Chunk Pg Ctx Tf PR))] = [] := rfl

theorem procArt_recPrc {Pg Ctx Tf PR : Type} (r : PR) :
    procArt [(("proc" : String), (Chunk.prc r : Chunk Pg Ctx Tf PR))] = [r] := rfl

/-!
## Claim theorems for the checkpoint (`sys_isvpcb`)
-/

/-- Environment for the C5 instances: every open succeeds, every write is
complete except the permission-flag word write, which transfers 0 bytes. -/
def envC5 : CkptEnv :=
  ⟨fun _ => true, fun _ => (PGSIZE : Int), fun _ => 0, 20, 76, 180, 20, 76, 180⟩

/-- A one-page process state for the C5 instances: page 0 mapped by pte
4103 (present, flags 7, frame 4096). -/
def stC5 : CkptSt Nat Nat Nat Nat :=
  ⟨emptyOfile, [], [], PGSIZE, fun a => if a = 0 then some 4103 else none,
   fun pa => pa + 7, 3, 11, 22, 33⟩

/-- C5, counterexample: the claim says every artifact write — including
each permission-flag word write — is checked and a short write aborts the
checkpoint.  In `envC5` the flag-word write for page 0 transfers 0 bytes
(fewer than the `sizeof(uint)` record), yet the checkpoint runs to its
success exit: the code never reads the flag write's return value
(sysfile.c line 566). -/
theorem ckpt_flag_short_write_not_fatal :
    envC5.flagWriteRes 0 = 0 ∧ succeededB (sys_isvpcb envC5 stC5) = true := by
  decide

/-- C5 as amended: during checkpoint, the page-content writes and the
context, trap-frame and descriptor record writes must each transfer
exactly the expected byte count, and a short one aborts the checkpoint
(the success exit is not reached); the permission-flag word writes are
unchecked — their byte counts (`flagWriteRes`) do not appear in the
success condition at all.  Success of the checkpoint on a free table is
exactly: the four checked opens succeed, every page is mapped, present
and fully written, and the three record writes are complete. -/
theorem ckpt_write_check_policy {Pg Ctx Tf PR : Type} (env : CkptEnv)
    (w : List (String × Chunk Pg Ctx Tf PR)) (sz : Nat)
    (pgdir : Nat → Option Nat) (mem : Nat → Pg) (pid : Nat) (ctx : Ctx)
    (tf : Tf) (prc : PR) (hfl : env.openOk "flag" = true) :
    succeededB (sys_isvpcb env
        ⟨emptyOfile, w, [], sz, pgdir, mem, pid, ctx, tf, prc⟩) = true ↔
      (env.openOk "pages" = true ∧
       (∀ k, k < npagesOf sz →
         pteGood pgdir k = true ∧ env.pageWriteRes k = (PGSIZE : Int)) ∧
       env.openOk "context" = true ∧ env.ctxWriteRes = (env.szCtx : Int) ∧
       env.openOk "trapframe" = true ∧ env.tfWriteRes = (env.szTf : Int) ∧
       env.openOk "proc" = true ∧ env.procWriteRes = (env.szProc : Int)) := by
  rw [isvpcb_succeededB env w sz pgdir mem pid ctx tf prc hfl,
    firstStop_none_iff]
  simp [List.mem_range]

/-- Witness for the amended C5 at a concrete input: with a short flag
write and everything else complete, the success condition holds and the
checkpoint succeeds. -/
theorem ckpt_write_check_policy_witness :
    succeededB (sys_isvpcb envC5 stC5) = true :=
  (ckpt_write_check_policy envC5 [] PGSIZE stC5.pgdir stC5.mem 3 11 22 33
    rfl).mpr (by decide)

/-- Environment for the C6 witness: all opens succeed, all writes full. -/
def envC6 : CkptEnv :=
  ⟨fun _ => true, fun _ => (PGSIZE : Int), fun _ => 4, 20, 76, 180, 20, 76, 180⟩

/-- Page table for the C6 witness: pages 0 and 1 mapped and present. -/
def pgdirC6 : Nat → Option Nat :=
  fun a => if a = 0 then some 4099 else if a = PGSIZE then some 8199 else none

/-- Memory for the C6 witness. -/
def memC6 : Nat → Nat := fun pa => pa + 1

/-- C6: for a process of declared size `sz` whose sweep completes, the
page sweep produces the `pages` and `flag` artifacts as parallel ordered
sequences with one (page-size content block, permission word) pair per
virtual page index `k` below `⌈sz / PGSIZE⌉`, in ascending virtual-address
order (`List.range` enumerates the indices in ascending order and page `k`
is at virtual address `k * PGSIZE`); the completed write log
`sweepWrites` places each flag word immediately after its matching content
block. -/
theorem ckpt_sweep_artifacts {Pg Ctx Tf PR : Type} (env : CkptEnv)
    (cons : List Msg) (sz : Nat) (pgdir : Nat → Option Nat) (mem : Nat → Pg)
    (pid : Nat) (ctx : Ctx) (tf : Tf) (prc : PR)
    (hpg : env.openOk "pages" = true) (hfl : env.openOk "flag" = true)
    (hmap : ∀ k, k < npagesOf sz → pteGood pgdir k = true)
    (hwr : ∀ k, k < npagesOf sz → env.pageWriteRes k = (PGSIZE : Int)) :
    ∃ st', uvmSection env
        ⟨emptyOfile, [], cons, sz, pgdir, mem, pid, ctx, tf, prc⟩ =
          Step.ok st' ∧
      st'.writes =
        sweepWrites (some "pages") (some "flag") pgdir mem
          (List.range (npagesOf sz)) ∧
      pagesArt st'.writes =
        (List.range (npagesOf sz)).filterMap
          (fun k => (pgdir (k * PGSIZE)).map fun e => mem (pteAddr e)) ∧
      flagsArt st'.writes =
        (List.range (npagesOf sz)).filterMap
          (fun k => (pgdir (k * PGSIZE)).map fun e => pteFlags e) ∧
      (pagesArt st'.writes).length = npagesOf sz ∧
      (flagsArt st'.writes).length = npagesOf sz := by
  have hnone : firstStop env pgdir (List.range (npagesOf sz)) = none := by
    rw [firstStop_none_iff]
    intro k hk
    rw [List.mem_range] at hk
    exact ⟨hmap k hk, hwr k hk⟩
  have hcontent : ∀ k ∈ List.range (npagesOf sz),
      ((pgdir (k * PGSIZE)).map fun e => mem (pteAddr e)).isSome = true := by
    intro k hk
    rw [List.mem_range] at hk
    have hg := pgdir_isSome_of_good pgdir k (hmap k hk)
    cases hp : pgdir (k * PGSIZE) with
    | none => rw [hp] at hg; simp at hg
    | some _ => simp
  have hflagc : ∀ k ∈ List.range (npagesOf sz),
      ((pgdir (k * PGSIZE)).map fun e => pteFlags e).isSome = true := by
    intro k hk
    rw [List.mem_range] at hk
    have hg := pgdir_isSome_of_good pgdir k (hmap k hk)
    cases hp : pgdir (k * PGSIZE) with
    | none => rw [hp] at hg; simp at hg
    | some _ => simp
  have hu := uvmSection_ok env [] cons sz pgdir mem pid ctx tf prc hpg hfl hnone
  refine ⟨_, hu, by simp, ?_, ?_, ?_, ?_⟩
  · simp [pagesArt_sweepPF]
  · simp [flagsArt_sweepPF]
  · simp only [List.nil_append, pagesArt_sweepPF]
    rw [length_filterMap_of_isSome _ _ hcontent, List.length_range]
  · simp only [List.nil_append, flagsArt_sweepPF]
    rw [length_filterMap_of_isSome _ _ hflagc, List.length_range]

/-- Witness for C6 at a concrete two-page process. -/
theorem ckpt_sweep_artifacts_witness :
    ∃ st', uvmSection envC6
        ⟨emptyOfile, [], [], 2 * PGSIZE, pgdirC6, memC6, 5, 1, 2, 3⟩ =
          Step.ok st' ∧
      st'.writes =
        sweepWrites (some "pages") (some "flag") pgdirC6 memC6
          (List.range (npagesOf (2 * PGSIZE))) ∧
      pagesArt st'.writes =
        (List.range (npagesOf (2 * PGSIZE))).filterMap
          (fun k => (pgdirC6 (k * PGSIZE)).map fun e => memC6 (pteAddr e)) ∧
      flagsArt st'.writes =
        (List.range (npagesOf (2 * PGSIZE))).filterMap
          (fun k => (pgdirC6 (k * PGSIZE)).map fun e => pteFlags e) ∧
      (pagesArt st'.writes).length = npagesOf (2 * PGSIZE) ∧
      (flagsArt st'.writes).length = npagesOf (2 * PGSIZE) :=
  ckpt_sweep_artifacts envC6 [] (2 * PGSIZE) pgdirC6 memC6 5 1 2 3 rfl rfl
    (by decide) (by decide)

/-- Environment for the C7 witness. -/
def envC7 : CkptEnv :=
  ⟨fun _ => true, fun _ => (PGSIZE : Int), fun _ => 4, 20, 76, 180, 20, 76, 180⟩

/-- A one-page process whose page 0 is unmapped, for the C7 witness. -/
def stC7 : CkptSt Nat Nat Nat Nat :=
  ⟨emptyOfile, [], [], PGSIZE, fun _ => none, fun pa => pa, 2, 0, 0, 0⟩

/-- C7: with the sweep reached (the `pages` open succeeded), the
checkpoint panics exactly when the sweep meets an unmapped or not-present
page before any earlier short page write stops it (`sweepPanics`); and
under the assume-valid-process precondition — every page below the
declared size mapped and present — the panic branch is unreachable. -/
theorem ckpt_sweep_panic_iff {Pg Ctx Tf PR : Type} (env : CkptEnv)
    (w : List (String × Chunk Pg Ctx Tf PR)) (cons : List Msg) (sz : Nat)
    (pgdir : Nat → Option Nat) (mem : Nat → Pg) (pid : Nat) (ctx : Ctx)
    (tf : Tf) (prc : PR) (hfl : env.openOk "flag" = true) :
    isPanicked (sys_isvpcb env
        ⟨emptyOfile, w, cons, sz, pgdir, mem, pid, ctx, tf, prc⟩) =
      (env.openOk "pages" && sweepPanics env pgdir (npagesOf sz)) ∧
    ((∀ k, k < npagesOf sz → pteGood pgdir k = true) →
      isPanicked (sys_isvpcb env
        ⟨emptyOfile, w, cons, sz, pgdir, mem, pid, ctx, tf, prc⟩) = false) := by
  have main : isPanicked (sys_isvpcb env
      ⟨emptyOfile, w, cons, sz, pgdir, mem, pid, ctx, tf, prc⟩) =
      (env.openOk "pages" && sweepPanics env pgdir (npagesOf sz)) := by
    by_cases hpg : env.openOk "pages" = true
    · cases hfs : firstStop env pgdir (List.range (npagesOf sz)) with
      | none =>
        have hu := uvmSection_ok env w (cons ++ [Msg.parentPid pid]) sz pgdir
          mem pid ctx tf prc hpg hfl hfs
        simp only [sys_isvpcb, pushMsg, hu]
        simp [sweepPanics, hfs, tailSections_not_panicked, hpg]
      | some p =>
        obtain ⟨k, kind⟩ := p
        obtain ⟨w', tail, htail, hu⟩ := uvmSection_stop env w
          (cons ++ [Msg.parentPid pid]) sz pgdir mem pid ctx tf prc k kind
          hpg hfl hfs
        simp only [sys_isvpcb, pushMsg, hu]
        cases kind <;> simp [stopOut, isPanicked, sweepPanics, hfs, hpg]
    · have hpg' : env.openOk "pages" = false := by simpa using hpg
      have hu := uvmSection_openfail env w (cons ++ [Msg.parentPid pid]) sz
        pgdir mem pid ctx tf prc hpg' hfl
      simp only [sys_isvpcb, pushMsg, hu]
      simp [isPanicked, hpg']
  refine ⟨main, fun hgood => ?_⟩
  rw [main, sweepPanics_false_of_good env pgdir _ hgood]
  simp

/-- Witness for C7 at a concrete input with an unmapped page: the
checkpoint panics, and the precondition direction is inhabited. -/
theorem ckpt_sweep_panic_iff_witness :
    isPanicked (sys_isvpcb envC7 stC7) =
      (envC7.openOk "pages" && sweepPanics envC7 stC7.pgdir (npagesOf stC7.sz)) ∧
    ((∀ k, k < npagesOf stC7.sz → pteGood stC7.pgdir k = true) →
      isPanicked (sys_isvpcb envC7 stC7) = false) :=
  ckpt_sweep_panic_iff envC7 [] [] PGSIZE stC7.pgdir stC7.mem 2 0 0 0 rfl

/-- Environment for the C8 witness: everything succeeds. -/
def envC8 : CkptEnv :=
  ⟨fun _ => true, fun _ => (PGSIZE : Int), fun _ => 4, 20, 76, 180, 20, 76, 180⟩

/-- A one-page process for the C8 witness. -/
def stC8 : CkptSt Nat Nat Nat Nat :=
  ⟨emptyOfile, [], [], PGSIZE, fun a => if a = 0 then some 4099 else none,
   fun pa => pa + 1, 7, 1, 2, 3⟩

/-- `sys_isvpcb` reaches its C `return` statement on no path. -/
theorem isvpcb_not_returned {Pg Ctx Tf PR : Type} (env : CkptEnv)
    (st0 : CkptSt Pg Ctx Tf PR) : isReturned (sys_isvpcb env st0) = false := by
  simp only [sys_isvpcb]
  cases hu : uvmSection env (pushMsg st0 (Msg.parentPid st0.pid)) with
  | panicked k s => simp [isReturned]
  | exited s => simp [isReturned]
  | ok s => simp [tailSections_not_returned]

/-- C8: the checkpoint entry point never returns control to its caller —
in the model the C `return 0` after `exit()` (`KOut.returned`) is reached
on no path, for any environment and state; and on the all-successful path
it produces all five artifacts (one content block and one flag word per
page, and exactly one context, trap-frame and descriptor record) and then
terminates the caller through `exit()` after printing the success
diagnostic. -/
theorem ckpt_never_returns {Pg Ctx Tf PR : Type} (env : CkptEnv)
    (st0 : CkptSt Pg Ctx Tf PR) :
    isReturned (sys_isvpcb env st0) = false ∧
    (st0.ofile = emptyOfile → st0.writes = [] → st0.console = [] →
     env.openOk "flag" = true → env.openOk "pages" = true →
     firstStop env st0.pgdir (List.range (npagesOf st0.sz)) = none →
     env.openOk "context" = true → env.ctxWriteRes = (env.szCtx : Int) →
     env.openOk "trapframe" = true → env.tfWriteRes = (env.szTf : Int) →
     env.openOk "proc" = true → env.procWriteRes = (env.szProc : Int) →
     ∃ st', sys_isvpcb env st0 = KOut.exited st' ∧
       (pagesArt st'.writes).length = npagesOf st0.sz ∧
       (flagsArt st'.writes).length = npagesOf st0.sz ∧
       ctxArt st'.writes = [st0.ctx] ∧ tfArt st'.writes = [st0.tf] ∧
       procArt st'.writes = [st0.prc] ∧ Msg.writeDone ∈ st'.console) := by
  obtain ⟨of, w0, c0, sz, pgdir, mem, pid, ctx, tf, prc⟩ := st0
  refine ⟨isvpcb_not_returned env _, ?_⟩
  intro hof hw hc hfl hpg hfs0 h1 h2 h3 h4 h5 h6
  have hof' : of = emptyOfile := hof
  have hw' : w0 = [] := hw
  have hc' : c0 = [] := hc
  have hfs : firstStop env pgdir (List.range (npagesOf sz)) = none := hfs0
  subst hof'; subst hw'; subst hc'
  have hu := uvmSection_ok env [] [Msg.parentPid pid] sz pgdir mem pid ctx
    tf prc hpg hfl hfs
  have htl := tailSections_all_ok env
    (sweepWrites (some "pages") (some "flag") pgdir mem
      (List.range (npagesOf sz)))
    (Msg.parentPid pid :: Msg.createdUVM ::
      (List.range (npagesOf sz)).map Msg.writtenPage)
    sz pgdir mem pid ctx tf prc h1 h2 h3 h4 h5 h6
  rw [firstStop_none_iff] at hfs
  have hcontent : ∀ k ∈ List.range (npagesOf sz),
      ((pgdir (k * PGSIZE)).map fun e => mem (pteAddr e)).isSome = true := by
    intro k hk
    have hg := pgdir_isSome_of_good pgdir k (hfs k hk).1
    cases hp : pgdir (k * PGSIZE) with
    | none => rw [hp] at hg; simp at hg
    | some _ => simp
  have hflagc : ∀ k ∈ List.range (npagesOf sz),
      ((pgdir (k * PGSIZE)).map fun e => pteFlags e).isSome = true := by
    intro k hk
    have hg := pgdir_isSome_of_good pgdir k (hfs k hk).1
    cases hp : pgdir (k * PGSIZE) with
    | none => rw [hp] at hg; simp at hg
    | some _ => simp
  simp only [sys_isvpcb, pushMsg, List.nil_append, List.singleton_append, hu]
  rw [htl]
  refine ⟨_, rfl, ?_, ?_, ?_, ?_, ?_, ?_⟩
  · simp only [pagesArt_append, pagesArt_recCtx, pagesArt_recTf,
      pagesArt_recPrc, pagesArt_sweepPF, List.append_nil]
    rw [length_filterMap_of_isSome _ _ hcontent, List.length_range]
  · simp only [flagsArt_append, flagsArt_recCtx, flagsArt_recTf,
      flagsArt_recPrc, flagsArt_sweepPF, List.append_nil]
    rw [length_filterMap_of_isSome _ _ hflagc, List.length_range]
  · simp only [ctxArt_append, ctxArt_sweepPF, List.nil_append]
    rfl
  · simp only [tfArt_append, tfArt_sweepPF, List.nil_append]
    rfl
  · simp only [procArt_append, procArt_sweepPF, List.nil_append]
    rfl
  · simp

/-- Witness for C8 at a concrete all-successful input. -/
theorem ckpt_never_returns_witness :
    isReturned (sys_isvpcb envC8 stC8) = false ∧
    ∃ st', sys_isvpcb envC8 stC8 = KOut.exited st' ∧
      (pagesArt st'.writes).length = npagesOf stC8.sz ∧
      (flagsArt st'.writes).length = npagesOf stC8.sz ∧
      ctxArt st'.writes = [stC8.ctx] ∧ tfArt st'.writes = [stC8.tf] ∧
      procArt st'.writes = [stC8.prc] ∧ Msg.writeDone ∈ st'.console :=
  ⟨(ckpt_never_returns envC8 stC8).1,
   (ckpt_never_returns envC8 stC8).2 rfl rfl rfl rfl rfl (by decide) rfl rfl
     rfl rfl rfl rfl⟩

/-- C9: a UVM sweep section that runs to completion leaves the source
process's memory and page table untouched (the copy is read-only), and
restores the caller's open-file table exactly: the two artifact
descriptors it allocated are cleared again and every other entry is
unchanged — for an arbitrary initial open-file table. -/
theorem ckpt_sweep_frame {Pg Ctx Tf PR : Type} (env : CkptEnv)
    (st st' : CkptSt Pg Ctx Tf PR) (h : uvmSection env st = Step.ok st') :
    st'.mem = st.mem ∧ st'.pgdir = st.pgdir ∧ st'.ofile = st.ofile ∧
      st'.sz = st.sz := by
  rcases openIfc_cases (env.openOk "pages") st.ofile "pages" with
    ⟨hok1, i1, tbl1, hfd1, hop1⟩ | hop1
  · rcases openIfc_cases (env.openOk "flag") tbl1 "flag" with
      ⟨hok2, i2, tbl2, hfd2, hop2⟩ | hop2
    · -- both opens succeeded
      obtain ⟨hget1, hset1⟩ := fdalloc_spec st.ofile "pages" i1 tbl1 hfd1
      obtain ⟨hget2, hset2⟩ := fdalloc_spec tbl1 "flag" i2 tbl2 hfd2
      have hlen1 : i1 < st.ofile.length :=
        (List.getElem?_eq_some_iff.mp hget1).1
      have hlen2 : i2 < tbl1.length := (List.getElem?_eq_some_iff.mp hget2).1
      have hne : i1 ≠ i2 := by
        intro he
        rw [hset1, ← he, getElem?_set_self _ _ _ hlen1] at hget2
        simp at hget2
      have hof2 : st.ofile[i2]? = some none := by
        rw [hset1, getElem?_set_other _ _ _ _ hne] at hget2
        exact hget2
      have hf1 : getFd tbl2 ((i1 : Nat) : Int) = some "pages" := by
        rw [getFd_natCast, List.getD_eq_getElem?_getD, hset2,
          getElem?_set_other _ _ _ _ (Ne.symm hne), hset1,
          getElem?_set_self _ _ _ hlen1]
        rfl
      have hf2 : getFd tbl2 ((i2 : Nat) : Int) = some "flag" := by
        rw [getFd_natCast, List.getD_eq_getElem?_getD, hset2,
          getElem?_set_self _ _ _ hlen2]
        rfl
      have e1 : tbl2.set i1 none = st.ofile.set i2 (some "flag") := by
        rw [hset2, List.set_comm _ _ _ (Ne.symm hne), hset1, List.set_set,
          set_none_of_none _ _ hget1]
      have e2 : (st.ofile.set i2 (some "flag")).set i2 none = st.ofile := by
        rw [List.set_set]
        exact set_none_of_none _ _ hof2
      have hrestore : setFdTbl (setFdTbl tbl2 ((i1 : Nat) : Int) none)
          ((i2 : Nat) : Int) none = st.ofile := by
        rw [setFdTbl_natCast, setFdTbl_natCast, e1, e2]
      simp only [uvmSection, hop1, hop2, pushMsg] at h
      rw [if_neg (by omega)] at h
      rw [hf1, hf2] at h
      cases hfs : firstStop env st.pgdir (List.range (npagesOf st.sz)) with
      | none =>
        simp only [sweepLoop_ok_of_none env (some "pages") (some "flag")
          (List.range (npagesOf st.sz)) tbl2 st.writes
          (st.console ++ [Msg.createdUVM]) st.sz st.pgdir st.mem st.pid
          st.ctx st.tf st.prc hfs] at h
        cases h
        exact ⟨rfl, rfl, hrestore, rfl⟩
      | some p =>
        obtain ⟨k, kind⟩ := p
        obtain ⟨w', tail, htail, hrun⟩ := sweepLoop_stop env (some "pages")
          (some "flag") (List.range (npagesOf st.sz)) tbl2 st.writes
          (st.console ++ [Msg.createdUVM]) st.sz st.pgdir st.mem st.pid
          st.ctx st.tf st.prc k kind hfs
        simp only [hrun] at h
        cases kind <;> simp [stopOut] at h
    · -- the flag open failed: the unchecked descriptor is -1
      obtain ⟨hget1, hset1⟩ := fdalloc_spec st.ofile "pages" i1 tbl1 hfd1
      have hlen1 : i1 < st.ofile.length :=
        (List.getElem?_eq_some_iff.mp hget1).1
      have hf1 : getFd tbl1 ((i1 : Nat) : Int) = some "pages" := by
        rw [getFd_natCast, List.getD_eq_getElem?_getD, hset1,
          getElem?_set_self _ _ _ hlen1]
        rfl
      have hrestore : setFdTbl (setFdTbl tbl1 ((i1 : Nat) : Int) none)
          (-1) none = st.ofile := by
        rw [setFdTbl_natCast, setFdTbl_negOne, hset1, List.set_set]
        exact set_none_of_none _ _ hget1
      simp only [uvmSection, hop1, hop2, pushMsg] at h
      rw [if_neg (by omega)] at h
      rw [hf1, getFd_negOne] at h
      cases hfs : firstStop env st.pgdir (List.range (npagesOf st.sz)) with
      | none =>
        simp only [sweepLoop_ok_of_none env (some "pages") none
          (List.range (npagesOf st.sz)) tbl1 st.writes
          (st.console ++ [Msg.createdUVM]) st.sz st.pgdir st.mem st.pid
          st.ctx st.tf st.prc hfs] at h
        cases h
        exact ⟨rfl, rfl, hrestore, rfl⟩
      | some p =>
        obtain ⟨k, kind⟩ := p
        obtain ⟨w', tail, htail, hrun⟩ := sweepLoop_stop env (some "pages")
          none (List.range (npagesOf st.sz)) tbl1 st.writes
          (st.console ++ [Msg.createdUVM]) st.sz st.pgdir st.mem st.pid
          st.ctx st.tf st.prc k kind hfs
        simp only [hrun] at h
        cases kind <;> simp [stopOut] at h
  · -- the pages open failed: the checkpoint exits before the sweep
    simp only [uvmSection, hop1] at h
    rw [if_pos (by norm_num)] at h
    simp at h

/-- Environment for the C9 witness. -/
def envC9 : CkptEnv :=
  ⟨fun _ => true, fun _ => (PGSIZE : Int), fun _ => 4, 20, 76, 180, 20, 76, 180⟩

/-- A one-page process for the C9 witness. -/
def stC9 : CkptSt Nat Nat Nat Nat :=
  ⟨emptyOfile, [], [], PGSIZE, fun a => if a = 0 then some 4099 else none,
   fun pa => pa + 1, 9, 5, 6, 7⟩

/-- The completed-sweep state of the C9 witness run. -/
def stC9' : CkptSt Nat Nat Nat Nat :=
  ⟨emptyOfile, [("pages", Chunk.page 4097), ("flag", Chunk.flagw 3)],
   [Msg.createdUVM, Msg.writtenPage 0], PGSIZE,
   fun a => if a = 0 then some 4099 else none, fun pa => pa + 1, 9, 5, 6, 7⟩

/-- Witness for C9 at a concrete completed sweep. -/
theorem ckpt_sweep_frame_witness :
    stC9'.mem = stC9.mem ∧ stC9'.pgdir = stC9.pgdir ∧
      stC9'.ofile = stC9.ofile ∧ stC9'.sz = stC9.sz :=
  ckpt_sweep_frame envC9 stC9 stC9' (by rfl)

/-!
## The restore syscall `sys_ildpcb` (sysfile.c lines 651-692)

The model records, besides the open-file table and console, a trace of the
restore's observable actions: each `the_opener` call with the mode it
passes, the two stores `*loaded_proc.context = loaded_context` and
`*loaded_proc.tf = loaded_tf` (stores through the pointer values carried
inside the deserialized descriptor), and the `load_the_proc` invocation.
`load_the_proc` itself is not part of src/ and is modelled from the
specification (see its doc comment).
-/

/-- The fields of the serialized process descriptor (`struct proc`) that
the restore path reads: the recorded size, pid, and the stale
`context`/`tf` pointer values. -/
structure ProcRec where
  pid : Nat
  sz : Nat
  contextPtr : Nat
  tfPtr : Nat
deriving DecidableEq

/-- Observable actions of a restore run. -/
inductive REv
  | openCall (name : String) (mode : Nat)
  | writeCtxThrough (dest : Nat)
  | writeTfThrough (dest : Nat)
  | loaderCall
deriving DecidableEq

/-- Kernel state visible to `sys_ildpcb`: the caller's open-file table,
console, the event trace, and the loader's book-keeping (frames allocated
and freed in this attempt, mappings inserted into the new address space,
whether a new PCB was allocated/released, and the pid submitted to the
scheduler). -/
structure RSt where
  ofile : List (Option String)
  console : List Msg
  events : List REv
  framesAlloc : Nat
  framesFreed : Nat
  mappings : List (Nat × Nat)
  pcbAlloc : Bool
  pcbReleased : Bool
  runnable : Option Nat
deriving DecidableEq

/-- Environment oracle for the restore: which artifact opens succeed, the
byte counts the three record `fileread` calls return, the record data they
deposit (only the descriptor's fields are consulted by the code), the
number of entries actually present in the `flag` artifact (an attribute of
the artifact set; the code never reads it), and the loader's process-slot
and frame-allocation outcomes. -/
structure RestEnv where
  openOk : String → Bool
  ctxReadRes : Int
  tfReadRes : Int
  procReadRes : Int
  procData : ProcRec
  flagCount : Nat
  allocProcOk : Bool
  newPid : Nat
  frameOk : Nat → Bool
  frameFlag : Nat → Nat

/-- One `the_opener(name, O_RDONLY)` call of the restore path: the call is
recorded with the mode it passes, and the interface-level opener applies. -/
def ropen (env : RestEnv) (st : RSt) (name : String) : Int × RSt :=
  let r := openIfc (env.openOk name) st.ofile name
  (r.1, {st with ofile := r.2,
                 events := st.events ++ [REv.openCall name O_RDONLY]})

/-- Modelled from the spec: the page loop of the loader (spec §4.4 step 6).
For each page index: read one content block and its permission word,
allocate one fresh physical frame and insert the mapping with the recorded
permissions; on an allocation failure free every frame allocated so far in
this attempt, release the new PCB, leave no mapping visible and return
-1. -/
def loadLoop (env : RestEnv) : List Nat → RSt → Int × RSt
  | [], st => ((env.newPid : Int), {st with runnable := some env.newPid})
  | k :: ks, st =>
    if env.frameOk k then
      loadLoop env ks
        {st with framesAlloc := st.framesAlloc + 1,
                 mappings := st.mappings ++ [(k * PGSIZE, env.frameFlag k)]}
    else
      (-1, {st with framesFreed := st.framesFreed + st.framesAlloc,
                    mappings := [], pcbReleased := true})

/-- Modelled from the spec: `load_the_proc` is code of this repository that
is not under src/ (only its caller `sys_ildpcb` is).  Following spec §4.4
steps 4-7 — and §7, which records that the baseline design lacks the
size-consistency check — it allocates a new process control block (failing
with -1 when no slot is free), runs the page loop over the indices below
⌈descriptor.size / PGSIZE⌉, and on success marks the new process runnable
and returns its pid.  The artifact reads inside the loop are modelled
through the environment's oracles; the content copy into each fresh frame
is not observable by any claim and is left abstract. -/
def load_the_proc (env : RestEnv) (d : ProcRec)
    (_pagesF _flagF : Option String) (st : RSt) : Int × RSt :=
  if env.allocProcOk then
    loadLoop env (List.range (npagesOf d.sz)) {st with pcbAlloc := true}
  else (-1, st)

/-- Transcribes `sys_ildpcb` (sysfile.c lines 651-692): open the five
artifacts read-only (no returned descriptor is checked against -1), read
the context, trap-frame and descriptor records (the three `fileread`
return values are discarded), print the read diagnostic, install the
buffered context and trap frame by storing through the descriptor's
`context` and `tf` pointer fields, call `load_the_proc`, clear the five
descriptors, close the handles, and return the loader's result. -/
def sys_ildpcb (env : RestEnv) (st0 : RSt) : Int × RSt :=
  let r1 := ropen env st0 "pages"
  let pages_fd := r1.1
  let r2 := ropen env r1.2 "context"
  let context_fd := r2.1
  let r3 := ropen env r2.2 "trapframe"
  let tf_fd := r3.1
  let r4 := ropen env r3.2 "proc"
  let proc_fd := r4.1
  let r5 := ropen env r4.2 "flag"
  let flag_fd := r5.1
  let st1 := r5.2
  let pages_f := getFd st1.ofile pages_fd
  let _context_f := getFd st1.ofile context_fd
  let _tf_f := getFd st1.ofile tf_fd
  let _proc_f := getFd st1.ofile proc_fd
  let flag_f := getFd st1.ofile flag_fd
  -- fileread(context_f, ...), fileread(tf_f, ...), fileread(proc_f, ...):
  -- the byte counts are computed and then ignored by the code
  let _n1 := env.ctxReadRes
  let _n2 := env.tfReadRes
  let _n3 := env.procReadRes
  let loaded_proc := env.procData
  let st2 := {st1 with console := st1.console ++ [Msg.readSuccessful]}
  -- *loaded_proc.context = loaded_context;
  let st3 := {st2 with events :=
    st2.events ++ [REv.writeCtxThrough loaded_proc.contextPtr]}
  -- *loaded_proc.tf = loaded_tf;
  let st4 := {st3 with events :=
    st3.events ++ [REv.writeTfThrough loaded_proc.tfPtr]}
  let st5 := {st4 with events := st4.events ++ [REv.loaderCall]}
  let r6 := load_the_proc env loaded_proc pages_f flag_f st5
  let pid := r6.1
  let st6 := r6.2
  let st7 := {st6 with ofile := setFdTbl st6.ofile pages_fd none}
  let st8 := {st7 with ofile := setFdTbl st7.ofile context_fd none}
  let st9 := {st8 with ofile := setFdTbl st8.ofile tf_fd none}
  let st10 := {st9 with ofile := setFdTbl st9.ofile flag_fd none}
  let st11 := {st10 with ofile := setFdTbl st10.ofile proc_fd none}
  -- fileclose x 5: no modelled effect beyond the descriptor clears
  (pid, st11)

/-- The pointer-store and loader-call events of a trace. -/
def ptrEvents (evs : List REv) : List REv :=
  evs.filter fun e =>
    match e with
    | REv.writeCtxThrough _ => true
    | REv.writeTfThrough _ => true
    | REv.loaderCall => true
    | _ => false

/-- The events before the loader is invoked. -/
def preLoader (evs : List REv) : List REv :=
  evs.takeWhile fun e => !(e == REv.loaderCall)

/-- The open-call events of a trace. -/
def openEvents (evs : List REv) : List REv :=
  evs.filter fun e =>
    match e with
    | REv.openCall _ _ => true
    | _ => false

/-- The size-consistency condition of spec §4.4 step 3: the descriptor's
size equals the number of permission-flag entries times the page size. -/
def sizeConsistent (d : ProcRec) (flagCount : Nat) : Prop :=
  d.sz = flagCount * PGSIZE

instance (d : ProcRec) (c : Nat) : Decidable (sizeConsistent d c) :=
  inferInstanceAs (Decidable (d.sz = c * PGSIZE))

theorem loadLoop_events (env : RestEnv) (ks : List Nat) (st : RSt) :
    (loadLoop env ks st).2.events = st.events := by
  induction ks generalizing st with
  | nil => rfl
  | cons k ks ih =>
    simp only [loadLoop]
    split
    · exact ih _
    · rfl

theorem load_the_proc_events (env : RestEnv) (d : ProcRec)
    (pagesF flagF : Option String) (st : RSt) :
    (load_the_proc env d pagesF flagF st).2.events = st.events := by
  simp only [load_the_proc]
  split
  · exact loadLoop_events env _ _
  · rfl

/-- The full event trace of one restore invocation. -/
theorem sys_ildpcb_events (env : RestEnv) (st0 : RSt) :
    (sys_ildpcb env st0).2.events =
      st0.events ++
        [REv.openCall "pages" O_RDONLY, REv.openCall "context" O_RDONLY,
         REv.openCall "trapframe" O_RDONLY, REv.openCall "proc" O_RDONLY,
         REv.openCall "flag" O_RDONLY,
         REv.writeCtxThrough env.procData.contextPtr,
         REv.writeTfThrough env.procData.tfPtr, REv.loaderCall] := by
  simp only [sys_ildpcb, ropen, load_the_proc_events, List.append_assoc]
  simp

/-!
## Claim theorems for the restore (`sys_ildpcb`)
-/

/-- A fresh restore state: free table, empty traces, no allocations. -/
def rst0 : RSt := ⟨emptyOfile, [], [], 0, 0, [], false, false, none⟩

/-- Environment for the C1 instances: all artifacts open, every loader
step succeeds; the deserialized descriptor carries the stale pointer
values 111 and 222 in its `context` and `tf` fields. -/
def envR1 : RestEnv :=
  ⟨fun _ => true, 20, 76, 180, ⟨4, PGSIZE, 111, 222⟩, 1, true, 8,
   fun _ => true, fun _ => 7⟩

/-- C1, counterexample: the claim says the restore never writes through
the stale context/trap-frame pointer fields carried inside the serialized
descriptor before they are patched.  At this concrete input the trace of
events before the loader call (the patch point) contains the stores
through the descriptor's stale pointer values 111 and 222: sysfile.c
lines 677-678 execute `*loaded_proc.context = loaded_context` and
`*loaded_proc.tf = loaded_tf` before `load_the_proc` runs. -/
theorem ildpcb_stale_write_counterexample :
    envR1.procData.contextPtr = 111 ∧ envR1.procData.tfPtr = 222 ∧
    REv.writeCtxThrough 111 ∈ preLoader (sys_ildpcb envR1 rst0).2.events ∧
    REv.writeTfThrough 222 ∈ preLoader (sys_ildpcb envR1 rst0).2.events := by
  decide

/-- C1 as amended: on every restore invocation, the buffered
ExecutionContext and TrapFrame are installed by storing through the
`context` and `tf` pointer values carried inside the deserialized
descriptor — stale pointers into the original process's storage — and
both stores happen before the loader (which allocates the new process) is
invoked: the pointer-store/loader events of every run are exactly the
store through `procData.contextPtr`, the store through `procData.tfPtr`,
and then the loader call. -/
theorem ildpcb_installs_via_stale_pointers (env : RestEnv) (st0 : RSt) :
    ptrEvents (sys_ildpcb env st0).2.events =
      ptrEvents st0.events ++
        [REv.writeCtxThrough env.procData.contextPtr,
         REv.writeTfThrough env.procData.tfPtr, REv.loaderCall] := by
  rw [sys_ildpcb_events]
  simp [ptrEvents, List.filter_append]

/-- Environment for the C2 instances: everything succeeds, but the
descriptor's recorded size (2 pages) disagrees with the flag artifact's
entry count (1 word). -/
def envR2 : RestEnv :=
  ⟨fun _ => true, 20, 76, 180, ⟨4, 2 * PGSIZE, 50, 60⟩, 1, true, 9,
   fun _ => true, fun _ => 7⟩

/-- C2, counterexample: the claim says the restore validates
`descriptor.size = flag-entry-count × page_size` and returns an error
whenever the equality fails.  At this concrete input the equality fails
(8192 ≠ 1 × 4096), yet the restore returns the new pid 9 (not an error)
and has inserted mappings — no rejection happens anywhere on the path
(sysfile.c lines 651-692 contain no such check, and spec §7 records that
the baseline design lacks it). -/
theorem ildpcb_accepts_inconsistent_size :
    ¬ sizeConsistent envR2.procData envR2.flagCount ∧
    (sys_ildpcb envR2 rst0).1 = 9 ∧
    (sys_ildpcb envR2 rst0).2.mappings ≠ [] := by
  decide

/-- C2 as amended: the restore performs no size-consistency validation at
all — its result and final state are independent of the permission-flag
artifact's entry count, so an artifact set whose descriptor size disagrees
with (flag-entry-count × page size) is processed exactly like a consistent
one and is not rejected on that ground. -/
theorem loadLoop_flagCount (env : RestEnv) (c : Nat) (ks : List Nat)
    (st : RSt) :
    loadLoop {env with flagCount := c} ks st = loadLoop env ks st := by
  induction ks generalizing st with
  | nil => rfl
  | cons k ks ih =>
    simp only [loadLoop]
    split <;> simp [ih]

theorem ildpcb_no_size_validation (env : RestEnv) (st : RSt) (c : Nat) :
    sys_ildpcb {env with flagCount := c} st = sys_ildpcb env st := by
  simp only [sys_ildpcb, ropen, load_the_proc, loadLoop_flagCount]

/-- Environment for the C3 instance: the `fileread` of the context record
returns 0 bytes (a short read of the fixed-size record); everything else
succeeds. -/
def envR3 : RestEnv :=
  ⟨fun _ => true, 0, 76, 180, ⟨4, PGSIZE, 50, 60⟩, 1, true, 10,
   fun _ => true, fun _ => 7⟩

/-- C3, at the failing input: the claim says any short read of the
descriptor, context, or trap-frame record yields a single error outcome
with rollback.  Here the context-record read returns 0 bytes, yet the
restore prints its "Read was successful." diagnostic and returns the new
pid 10: sysfile.c lines 672-674 discard all three `fileread` return
values, so a short read is never detected and no error path exists. -/
theorem ildpcb_ignores_short_reads :
    envR3.ctxReadRes = 0 ∧
    Msg.readSuccessful ∈ (sys_ildpcb envR3 rst0).2.console ∧
    (sys_ildpcb envR3 rst0).1 = 10 := by
  decide

/-- Environment for the C4 instance: the `pages` artifact is missing (its
open fails); the other four artifacts open fine. -/
def envR4 : RestEnv :=
  ⟨fun nm => if nm = "pages" then false else true, 20, 76, 180,
   ⟨4, PGSIZE, 50, 60⟩, 1, true, 11, fun _ => true, fun _ => 7⟩

/-- C4, at the failing input: the restore does open all five artifacts
read-only (the five recorded open calls all pass `O_RDONLY`), but when the
`pages` open fails it does not abort with a load error: sysfile.c lines
657-666 never test the returned descriptors, so with `pages` missing the
code indexes `proc->ofile[-1]` (modelled as the absent handle), proceeds
through the reads and the loader, and returns the loader's pid 11. -/
theorem ildpcb_ignores_missing_artifact :
    envR4.openOk "pages" = false ∧
    openEvents (sys_ildpcb envR4 rst0).2.events =
      [REv.openCall "pages" O_RDONLY, REv.openCall "context" O_RDONLY,
       REv.openCall "trapframe" O_RDONLY, REv.openCall "proc" O_RDONLY,
       REv.openCall "flag" O_RDONLY] ∧
    (sys_ildpcb envR4 rst0).1 = 11 := by
  decide

end Xv6CR
